import Mathlib

/-!
Verification of the pi-ask-tool extension: a shallow embedding of its
selection-normalization logic, inline-note formatting, session-text
sanitizer, tabbed multi-question session state machine (both coexisting
variants) and the result-assembly / routing layer of the ask tool, with
theorems settling the frozen claims about the specification.

Strings are modeled as Lean strings viewed as lists of characters
(code points); the source operates on JavaScript strings.  All source
functions are translated directly from the TypeScript sources.
-/

/-! ## JavaScript string primitives -/

/-- Characters matched by the JavaScript regular-expression class for
whitespace and trimmed by trim: TAB, LF, VT, FF, CR, space, NBSP,
Ogham space, the U+2000 to U+200A range, LS, PS, NNBSP, MMSP,
ideographic space and the BOM. -/
def jsWsChar (c : Char) : Bool :=
  decide (c.toNat = 0x9) || decide (c.toNat = 0xA) || decide (c.toNat = 0xB) ||
  decide (c.toNat = 0xC) || decide (c.toNat = 0xD) || decide (c.toNat = 0x20) ||
  decide (c.toNat = 0xA0) || decide (c.toNat = 0x1680) ||
  (decide (0x2000 ≤ c.toNat) && decide (c.toNat ≤ 0x200A)) ||
  decide (c.toNat = 0x2028) || decide (c.toNat = 0x2029) ||
  decide (c.toNat = 0x202F) || decide (c.toNat = 0x205F) ||
  decide (c.toNat = 0x3000) || decide (c.toNat = 0xFEFF)

/-- Drop trailing characters satisfying jsWsChar, structurally. -/
def trimWsEnd : List Char → List Char
  | [] => []
  | c :: rest =>
    match trimWsEnd rest with
    | [] => if jsWsChar c then [] else [c]
    | r => c :: r

/-- JavaScript String.trim: removes whitespace and line terminators from
both ends. -/
def jsTrim (s : String) : String :=
  String.mk (trimWsEnd (s.data.dropWhile jsWsChar))

/-! ## ask-logic: constants and data model -/

def OTHER_OPTION : String := "Other (type your own)"

def RECOMMENDED_SUFFIX : String := " (Recommended)"

structure AskOption where
  label : String
  deriving DecidableEq, Repr, Inhabited

structure AskQuestion where
  id : String
  question : String
  options : List AskOption
  multi : Option Bool := none
  recommended : Option Int := none
  deriving DecidableEq, Repr, Inhabited

structure AskSelection where
  selectedOptions : List String
  customInput : Option String := none
  deriving DecidableEq, Repr, Inhabited

/-- The label ends with the fixed recommended suffix. -/
def hasRecommendedTag (label : String) : Bool :=
  RECOMMENDED_SUFFIX.data.isSuffixOf label.data

/-- Append the tag to the label unless already present. -/
def tagLabel (label : String) : String :=
  if hasRecommendedTag label then label else label ++ RECOMMENDED_SUFFIX

/-- The indexed map of addRecommendedSuffix: tags the element whose index
equals the recommended index, starting the count at i. -/
def tagAt (recommendedIndex : Int) : Nat → List String → List String
  | _, [] => []
  | i, label :: rest =>
    (if (i : Int) = recommendedIndex then tagLabel label else label)
      :: tagAt recommendedIndex (i + 1) rest

/-- ask-logic addRecommendedSuffix: labels unchanged for a null or
out-of-range index, otherwise the label at the index gets the suffix
unless it already ends with it. -/
def addRecommendedSuffix (labels : List String) (recommendedIndex : Option Int) : List String :=
  match recommendedIndex with
  | none => labels
  | some r =>
    if r < 0 ∨ (labels.length : Int) ≤ r then labels
    else tagAt r 0 labels

/-- ask-logic stripRecommendedSuffix: removes the fixed suffix when the
label ends with it. -/
def stripRecommendedSuffix (label : String) : String :=
  if RECOMMENDED_SUFFIX.data.isSuffixOf label.data then
    String.mk (label.data.take (label.data.length - RECOMMENDED_SUFFIX.data.length))
  else label

/-- ask-logic buildSingleSelection. -/
def buildSingleSelection (choiceLabel : String) (note : Option String) : AskSelection :=
  let normalizedChoice := stripRecommendedSuffix choiceLabel
  let normalizedNote := jsTrim (note.getD "")
  if normalizedChoice = OTHER_OPTION then
    if normalizedNote = "" then ⟨[], none⟩
    else ⟨[], some normalizedNote⟩
  else if normalizedNote = "" then ⟨[normalizedChoice], none⟩
  else ⟨[normalizedChoice ++ " - " ++ normalizedNote], none⟩

/-- Join a (stripped) label with a trimmed note the way buildMultiSelection
pushes entries. -/
def fmtOptionWithNote (label note : String) : String :=
  if note = "" then label else label ++ " - " ++ note

/-- The loop body of buildMultiSelection over the listed loop indices, in
order: a selected index other than otherIndex contributes a formatted
entry; the otherIndex, when its trimmed note is non-empty, assigns the
custom input (a later assignment would win). -/
def multiGo (optionLabels : List String) (selectedIndexes : List Int)
    (notes : List String) (otherIndex : Int) : List Nat → List String × Option String
  | [] => ([], none)
  | i :: rest =>
    let tail := multiGo optionLabels selectedIndexes notes otherIndex rest
    if (i : Int) ∈ selectedIndexes then
      if (i : Int) = otherIndex then
        let note := jsTrim (notes.getD i "")
        (tail.1, Option.or tail.2 (if note = "" then none else some note))
      else
        let label := stripRecommendedSuffix (optionLabels.getD i "")
        let note := jsTrim (notes.getD i "")
        (fmtOptionWithNote label note :: tail.1, tail.2)
    else tail

/-- ask-logic buildMultiSelection: iterates option indices in order,
collecting selected entries and routing the note at otherIndex into the
custom input. -/
def buildMultiSelection (optionLabels : List String) (selectedIndexes : List Int)
    (notes : List String) (otherIndex : Int) : AskSelection :=
  let p := multiGo optionLabels selectedIndexes notes otherIndex (List.range optionLabels.length)
  ⟨p.1, p.2⟩

/-! ## ask-logic, renamed duplicate (part_002): same functions under the
names of the second coexisting copy of the module -/

def RECOMMENDED_OPTION_TAG : String := " (Recommended)"

/-- Duplicate of hasRecommendedTag for the renamed copy. -/
def hasRecommendedOptionTag (optionLabel : String) : Bool :=
  RECOMMENDED_OPTION_TAG.data.isSuffixOf optionLabel.data

/-- Duplicate of tagLabel for the renamed copy. -/
def tagOptionLabel (optionLabel : String) : String :=
  if hasRecommendedOptionTag optionLabel then optionLabel
  else optionLabel ++ RECOMMENDED_OPTION_TAG

/-- Duplicate of tagAt for the renamed copy. -/
def tagOptionAt (recommendedOptionIndex : Int) : Nat → List String → List String
  | _, [] => []
  | i, optionLabel :: rest =>
    (if (i : Int) = recommendedOptionIndex then tagOptionLabel optionLabel else optionLabel)
      :: tagOptionAt recommendedOptionIndex (i + 1) rest

/-- part_002 appendRecommendedTagToOptionLabels. -/
def appendRecommendedTagToOptionLabels (optionLabels : List String)
    (recommendedOptionIndex : Option Int) : List String :=
  match recommendedOptionIndex with
  | none => optionLabels
  | some r =>
    if r < 0 ∨ (optionLabels.length : Int) ≤ r then optionLabels
    else tagOptionAt r 0 optionLabels

/-- part_002 removeRecommendedTagFromOptionLabel. -/
def removeRecommendedTagFromOptionLabel (optionLabel : String) : String :=
  if RECOMMENDED_OPTION_TAG.data.isSuffixOf optionLabel.data then
    String.mk (optionLabel.data.take
      (optionLabel.data.length - RECOMMENDED_OPTION_TAG.data.length))
  else optionLabel

/-- part_002 buildSingleSelectionResult. -/
def buildSingleSelectionResult (selectedOptionLabel : String) (note : Option String) :
    AskSelection :=
  let normalizedSelectedOption := removeRecommendedTagFromOptionLabel selectedOptionLabel
  let normalizedNote := jsTrim (note.getD "")
  if normalizedSelectedOption = OTHER_OPTION then
    if normalizedNote = "" then ⟨[], none⟩
    else ⟨[], some normalizedNote⟩
  else if normalizedNote = "" then ⟨[normalizedSelectedOption], none⟩
  else ⟨[normalizedSelectedOption ++ " - " ++ normalizedNote], none⟩

/-- Duplicate of multiGo for the renamed copy. -/
def multiResultGo (optionLabels : List String) (selectedOptionIndexes : List Int)
    (optionNotes : List String) (otherOptionIndex : Int) :
    List Nat → List String × Option String
  | [] => ([], none)
  | i :: rest =>
    let tail := multiResultGo optionLabels selectedOptionIndexes optionNotes otherOptionIndex rest
    if (i : Int) ∈ selectedOptionIndexes then
      if (i : Int) = otherOptionIndex then
        let optionNote := jsTrim (optionNotes.getD i "")
        (tail.1, Option.or tail.2 (if optionNote = "" then none else some optionNote))
      else
        let optionLabel := removeRecommendedTagFromOptionLabel (optionLabels.getD i "")
        let optionNote := jsTrim (optionNotes.getD i "")
        (fmtOptionWithNote optionLabel optionNote :: tail.1, tail.2)
    else tail

/-- part_002 buildMultiSelectionResult. -/
def buildMultiSelectionResult (optionLabels : List String) (selectedOptionIndexes : List Int)
    (optionNotes : List String) (otherOptionIndex : Int) : AskSelection :=
  let p := multiResultGo optionLabels selectedOptionIndexes optionNotes otherOptionIndex
    (List.range optionLabels.length)
  ⟨p.1, p.2⟩

/-! ## ask-inline-note: inline note formatter -/

def INLINE_NOTE_SEPARATOR : String := " — note: "

def INLINE_EDIT_CURSOR : String := "▍"

def INLINE_NOTE_WRAP_PADDING : Nat := 2

/-- Character replaced by a space in the inline sanitizer: CR, LF or TAB. -/
def isCrLfTab (c : Char) : Bool :=
  decide (c.toNat = 0xD) || decide (c.toNat = 0xA) || decide (c.toNat = 0x9)

/-- Characters removed by the second pass of the sanitizers: the class
from x00 to x08, x0B, x0C, x0E to x1F and x7F. -/
def isStrippedCtl (c : Char) : Bool :=
  decide (c.toNat ≤ 0x08) || decide (c.toNat = 0x0B) || decide (c.toNat = 0x0C) ||
  (decide (0x0E ≤ c.toNat) && decide (c.toNat ≤ 0x1F)) || decide (c.toNat = 0x7F)

/-- ask-inline-note sanitizeNoteForInlineDisplay: CR, LF and TAB each become
a space, then the control class is removed. -/
def sanitizeNoteForInlineDisplay (rawNote : String) : String :=
  String.mk (((rawNote.data.map fun c => if isCrLfTab c then ' ' else c).filter
    fun c => !isStrippedCtl c))

/-- ask-inline-note truncateTextKeepingTail. -/
def truncateTextKeepingTail (text : String) (maxLength : Int) : String :=
  if maxLength ≤ 0 then ""
  else if (text.data.length : Int) ≤ maxLength then text
  else if maxLength = 1 then "…"
  else "…" ++ String.mk (text.data.drop (text.data.length - (maxLength - 1).toNat))

/-- ask-inline-note truncateTextKeepingHead. -/
def truncateTextKeepingHead (text : String) (maxLength : Int) : String :=
  if maxLength ≤ 0 then ""
  else if (text.data.length : Int) ≤ maxLength then text
  else if maxLength = 1 then "…"
  else String.mk (text.data.take (maxLength - 1).toNat) ++ "…"

/-- ask-inline-note buildOptionLabelWithInlineNote. -/
def buildOptionLabelWithInlineNote (baseOptionLabel rawNote : String)
    (isEditingNote : Bool) (maxInlineLabelLength : Option Int) : String :=
  let sanitizedNote := sanitizeNoteForInlineDisplay rawNote
  if ¬ isEditingNote ∧ (jsTrim sanitizedNote).data.length = 0 then baseOptionLabel
  else
    let labelHead := baseOptionLabel ++ INLINE_NOTE_SEPARATOR
    let inlineNote := if isEditingNote then sanitizedNote ++ INLINE_EDIT_CURSOR
      else jsTrim sanitizedNote
    let inlineLabel := labelHead ++ inlineNote
    match maxInlineLabelLength with
    | none => inlineLabel
    | some m =>
      if isEditingNote then truncateTextKeepingTail inlineLabel m
      else truncateTextKeepingHead inlineLabel m

namespace InlineNoteCopy

/-- Second verbatim copy of sanitizeNoteForInlineDisplay. -/
def sanitizeNoteForInlineDisplay (rawNote : String) : String :=
  String.mk (((rawNote.data.map fun c => if isCrLfTab c then ' ' else c).filter
    fun c => !isStrippedCtl c))

/-- Second verbatim copy of truncateTextKeepingTail. -/
def truncateTextKeepingTail (text : String) (maxLength : Int) : String :=
  if maxLength ≤ 0 then ""
  else if (text.data.length : Int) ≤ maxLength then text
  else if maxLength = 1 then "…"
  else "…" ++ String.mk (text.data.drop (text.data.length - (maxLength - 1).toNat))

/-- Second verbatim copy of truncateTextKeepingHead. -/
def truncateTextKeepingHead (text : String) (maxLength : Int) : String :=
  if maxLength ≤ 0 then ""
  else if (text.data.length : Int) ≤ maxLength then text
  else if maxLength = 1 then "…"
  else String.mk (text.data.take (maxLength - 1).toNat) ++ "…"

/-- Second verbatim copy of buildOptionLabelWithInlineNote. -/
def buildOptionLabelWithInlineNote (baseOptionLabel rawNote : String)
    (isEditingNote : Bool) (maxInlineLabelLength : Option Int) : String :=
  let sanitizedNote := InlineNoteCopy.sanitizeNoteForInlineDisplay rawNote
  if ¬ isEditingNote ∧ (jsTrim sanitizedNote).data.length = 0 then baseOptionLabel
  else
    let labelHead := baseOptionLabel ++ INLINE_NOTE_SEPARATOR
    let rawInlineNote := if isEditingNote then sanitizedNote ++ INLINE_EDIT_CURSOR
      else jsTrim sanitizedNote
    let fullInlineLabel := labelHead ++ rawInlineNote
    match maxInlineLabelLength with
    | none => fullInlineLabel
    | some m =>
      if isEditingNote then InlineNoteCopy.truncateTextKeepingTail fullInlineLabel m
      else InlineNoteCopy.truncateTextKeepingHead fullInlineLabel m

end InlineNoteCopy

/-! ## Session-text sanitizer and result assembly (part_000 index module) -/

/-- Head of the list is a whitespace character. -/
def headIsWs : List Char → Bool
  | [] => false
  | d :: _ => jsWsChar d

theorem length_dropWhile_le_gen (p : Char → Bool) (l : List Char) :
    (l.dropWhile p).length ≤ l.length :=
  (List.dropWhile_suffix p).sublist.length_le

/-- Fuel-driven worker for collapseWsRuns; the fuel never runs out when
it starts at the length of the list. -/
def collapseGo : Nat → List Char → List Char
  | _, [] => []
  | 0, l => l
  | fuel + 1, c :: rest =>
    if jsWsChar c && headIsWs rest then ' ' :: collapseGo fuel (rest.dropWhile jsWsChar)
    else c :: collapseGo fuel rest

/-- Replace each maximal run of two or more whitespace characters by one
space, the behavior of the global regex replacing two-or-more whitespace
with a single space; a lone whitespace character is kept as it is. -/
def collapseWsRuns (l : List Char) : List Char := collapseGo l.length l

theorem collapseGo_congr (n : Nat) : ∀ (m : Nat) (l : List Char),
    l.length ≤ n → l.length ≤ m → collapseGo n l = collapseGo m l := by
  induction n with
  | zero =>
    intro m l hn _
    have : l = [] := List.length_eq_zero.mp (Nat.le_zero.mp hn)
    subst this
    cases m <;> rfl
  | succ n ih =>
    intro m l hn hm
    cases l with
    | nil => cases m <;> rfl
    | cons c rest =>
      have hm1 : 1 ≤ m := by
        have : 0 < (c :: rest).length := by simp
        omega
      obtain ⟨m', rfl⟩ : ∃ m', m = m' + 1 := ⟨m - 1, by omega⟩
      simp only [collapseGo]
      have hrest : rest.length ≤ n := by
        have : (c :: rest).length = rest.length + 1 := rfl
        omega
      have hrest' : rest.length ≤ m' := by
        have : (c :: rest).length = rest.length + 1 := rfl
        omega
      have hdrop : (rest.dropWhile jsWsChar).length ≤ n :=
        le_trans (length_dropWhile_le_gen jsWsChar rest) hrest
      have hdrop' : (rest.dropWhile jsWsChar).length ≤ m' :=
        le_trans (length_dropWhile_le_gen jsWsChar rest) hrest'
      by_cases hcond : (jsWsChar c && headIsWs rest) = true
      · rw [if_pos hcond, if_pos hcond, ih m' (rest.dropWhile jsWsChar) hdrop hdrop']
      · rw [if_neg hcond, if_neg hcond, ih m' rest hrest hrest']

theorem collapseWsRuns_nil : collapseWsRuns [] = [] := rfl

theorem collapseWsRuns_cons (c : Char) (rest : List Char) :
    collapseWsRuns (c :: rest) =
      if jsWsChar c && headIsWs rest then ' ' :: collapseWsRuns (rest.dropWhile jsWsChar)
      else c :: collapseWsRuns rest := by
  show collapseGo (rest.length + 1) (c :: rest) = _
  simp only [collapseGo]
  by_cases hcond : (jsWsChar c && headIsWs rest) = true
  · rw [if_pos hcond, if_pos hcond,
      collapseGo_congr rest.length (rest.dropWhile jsWsChar).length (rest.dropWhile jsWsChar)
        (length_dropWhile_le_gen jsWsChar rest) le_rfl]
    rfl
  · rw [if_neg hcond, if_neg hcond]
    rfl

/-- part_000 sanitizeForSessionText: CR, LF and TAB become spaces, the
control class is removed, whitespace runs of two or more collapse to one
space, and the result is trimmed. -/
def sanitizeForSessionText (value : String) : String :=
  jsTrim (String.mk (collapseWsRuns
    ((value.data.map fun c => if isCrLfTab c then ' ' else c).filter
      fun c => !isStrippedCtl c)))

/-- part_000 sanitizeOptionForSessionText. -/
def sanitizeOptionForSessionText (option : String) : String :=
  let sanitizedOption := sanitizeForSessionText option
  if sanitizedOption.data.length = 0 then "(empty option)" else sanitizedOption

structure QuestionResult where
  id : String
  question : String
  options : List String
  multi : Bool
  selectedOptions : List String
  customInput : Option String := none
  deriving DecidableEq, Repr, Inhabited

/-- part_000 toSessionSafeQuestionResult. -/
def toSessionSafeQuestionResult (result : QuestionResult) : QuestionResult :=
  let selectedOptions := (result.selectedOptions.map sanitizeForSessionText).filter
    fun selectedOption => decide (selectedOption.data.length > 0)
  let customInput := result.customInput.map sanitizeForSessionText
  { id := if (sanitizeForSessionText result.id).data.length = 0 then "(unknown)"
      else sanitizeForSessionText result.id
    question := if (sanitizeForSessionText result.question).data.length = 0 then
      "(empty question)" else sanitizeForSessionText result.question
    options := result.options.map sanitizeOptionForSessionText
    multi := result.multi
    selectedOptions := selectedOptions
    customInput := match customInput with
      | none => none
      | some c => if c.data.length > 0 then some c else none }

/-- Truthiness of the optional custom input: present and non-empty, the
Boolean coercion of the source. -/
def hasCustomInputText (customInput : Option String) : Bool :=
  customInput.getD "" ≠ ""

/-- part_000 formatSelectionForSummary. -/
def formatSelectionForSummary (result : QuestionResult) : String :=
  let hasSelected := result.selectedOptions.length > 0
  let hasCustom := hasCustomInputText result.customInput
  if ¬ hasSelected ∧ ¬ hasCustom then "(cancelled)"
  else if hasSelected ∧ hasCustom then
    (if result.multi then "[" ++ String.intercalate ", " result.selectedOptions ++ "]"
     else result.selectedOptions.getD 0 "") ++ " + Other: \"" ++
      result.customInput.getD "" ++ "\""
  else if hasCustom then "\"" ++ result.customInput.getD "" ++ "\""
  else if result.multi then "[" ++ String.intercalate ", " result.selectedOptions ++ "]"
  else result.selectedOptions.getD 0 ""

/-- part_000 formatQuestionResult: one summary line. -/
def formatQuestionResult (result : QuestionResult) : String :=
  result.id ++ ": " ++ formatSelectionForSummary result

/-- part_000 formatQuestionContext: the per-question context block. -/
def formatQuestionContext (result : QuestionResult) (questionIndex : Nat) : String :=
  let headLines : List String :=
    ["Question " ++ toString (questionIndex + 1) ++ " (" ++ result.id ++ ")",
     "Prompt: " ++ result.question,
     "Options:"] ++
    (result.options.mapIdx fun optionIndex option =>
      "  " ++ toString (optionIndex + 1) ++ ". " ++ option) ++
    ["Response:"]
  let hasSelected := result.selectedOptions.length > 0
  let hasCustom := hasCustomInputText result.customInput
  let tailLines : List String :=
    if ¬ hasSelected ∧ ¬ hasCustom then ["  Selected: (cancelled)"]
    else
      (if hasSelected then
        ["  Selected: " ++ (if result.multi then
          "[" ++ String.intercalate ", " result.selectedOptions ++ "]"
          else result.selectedOptions.getD 0 "")]
       else []) ++
      (if hasCustom then
        (if ¬ hasSelected then ["  Selected: " ++ OTHER_OPTION] else []) ++
        ["  Custom input: " ++ result.customInput.getD ""]
       else [])
  String.intercalate "\n" (headLines ++ tailLines)

/-- part_000 buildAskSessionContent: sanitizes each result and assembles
the summary lines and context blocks into the transcript. -/
def buildAskSessionContent (results : List QuestionResult) : String :=
  let safeResults := results.map toSessionSafeQuestionResult
  let summaryLines := String.intercalate "\n" (safeResults.map formatQuestionResult)
  let contextBlocks := String.intercalate "\n\n"
    (safeResults.mapIdx fun index result => formatQuestionContext result index)
  "User answers:\n" ++ summaryLines ++ "\n\nAnswer context:\n" ++ contextBlocks

/-! ## Keyboard events shared by the interactive sessions -/

inductive Key where
  | left | right | up | down | tab | enter | escape | other
  deriving DecidableEq, Repr

/-- An input event of a tabbed session: a raw key press handled by
handleInput, or the embedded note editor invoking its onChange or
onSubmit callback with the current editor text. -/
inductive TabsEvent where
  | key (k : Key)
  | editorChange (value : String)
  | editorSubmit (value : String)
  deriving DecidableEq, Repr

/-- Shared clampIndex of both tab modules: 0 for a null index or an empty
range, otherwise the index clamped into the range. -/
def clampIndex (index : Option Int) (maxExclusive : Nat) : Nat :=
  match index with
  | none => 0
  | some i =>
    if maxExclusive = 0 then 0
    else if i < 0 then 0
    else if (maxExclusive : Int) ≤ i then maxExclusive - 1
    else i.toNat

/-- part_000 addIndexToSelection ascending insertion. -/
def insertAsc (i : Nat) : List Nat → List Nat
  | [] => [i]
  | x :: xs => if i ≤ x then i :: x :: xs else x :: insertAsc i xs

/-- Ascending numeric sort, the effect of the numeric Array.sort. -/
def sortAsc (l : List Nat) : List Nat := l.foldr insertAsc []

/-- part_000 addIndexToSelection: add the index unless present, keeping
ascending order. -/
def addIndexToSelection (selectedOptionIndexes : List Nat) (optionIndex : Nat) : List Nat :=
  if optionIndex ∈ selectedOptionIndexes then selectedOptionIndexes
  else sortAsc (selectedOptionIndexes ++ [optionIndex])

/-- part_000 removeIndexFromSelection. -/
def removeIndexFromSelection (selectedOptionIndexes : List Nat) (optionIndex : Nat) : List Nat :=
  selectedOptionIndexes.filter fun index => index ≠ optionIndex

namespace Tabs

/-- Prepared question of the current tabbed session (part_000): options
carry the recommended tag and the appended OTHER option. -/
structure PreparedQuestion where
  id : String
  question : String
  options : List String
  multi : Bool
  otherOptionIndex : Nat
  deriving DecidableEq, Repr, Inhabited

/-- part_000 TabsUIState, the snapshot passed to done. -/
structure TabsUIState where
  cancelled : Bool
  selectedOptionIndexesByQuestion : List (List Nat)
  noteByQuestionByOption : List (List String)
  deriving DecidableEq, Repr, Inhabited

/-- The mutable session variables closed over by the part_000 UI loop. -/
structure SessionState where
  activeTabIndex : Nat
  isNoteEditorOpen : Bool
  cursorOptionIndexByQuestion : List Nat
  selectedOptionIndexesByQuestion : List (List Nat)
  noteByQuestionByOption : List (List String)
  deriving DecidableEq, Repr, Inhabited

/-- part_000 preparation of one question. -/
def prepareQuestion (q : AskQuestion) : PreparedQuestion :=
  let optionLabels :=
    appendRecommendedTagToOptionLabels (q.options.map AskOption.label) q.recommended
      ++ [OTHER_OPTION]
  { id := q.id
    question := q.question
    options := optionLabels
    multi := q.multi = some true
    otherOptionIndex := optionLabels.length - 1 }

def prepareQuestions (questions : List AskQuestion) : List PreparedQuestion :=
  questions.map prepareQuestion

/-- part_000 initial session state: cursors at the clamped recommended
index, nothing selected, empty notes per option. -/
def initialState (questions : List AskQuestion) : SessionState :=
  let prepared := prepareQuestions questions
  { activeTabIndex := 0
    isNoteEditorOpen := false
    cursorOptionIndexByQuestion :=
      questions.map fun q => clampIndex q.recommended (prepareQuestion q).options.length
    selectedOptionIndexesByQuestion := prepared.map fun _ => []
    noteByQuestionByOption := prepared.map fun pq => List.replicate pq.options.length "" }

/-- part_000 isQuestionSelectionValid. -/
def isQuestionSelectionValid (question : PreparedQuestion)
    (selectedOptionIndexes : List Nat) (noteByOptionIndex : List String) : Bool :=
  if selectedOptionIndexes.length = 0 then false
  else if ¬ question.otherOptionIndex ∈ selectedOptionIndexes then true
  else decide ((jsTrim (noteByOptionIndex.getD question.otherOptionIndex "")).data.length > 0)

/-- part_000 isAllQuestionSelectionsValid over the session state. -/
def isAllValid (prepared : List PreparedQuestion) (s : SessionState) : Bool :=
  (List.range prepared.length).all fun qi =>
    isQuestionSelectionValid (prepared.getD qi default)
      (s.selectedOptionIndexesByQuestion.getD qi [])
      (s.noteByQuestionByOption.getD qi [])

/-- Store a note for the given question and option. -/
def setNote (s : SessionState) (qi oi : Nat) (value : String) : SessionState :=
  { s with noteByQuestionByOption :=
      s.noteByQuestionByOption.set qi ((s.noteByQuestionByOption.getD qi []).set oi value) }

/-- The snapshot done receives, built from the current session state. -/
def snapshotOf (cancelled : Bool) (s : SessionState) : TabsUIState :=
  ⟨cancelled, s.selectedOptionIndexesByQuestion, s.noteByQuestionByOption⟩

/-- The note-editor onChange callback of the part_000 session. -/
def editorChangeStep (prepared : List PreparedQuestion) (s : SessionState) (value : String) :
    SessionState × Option TabsUIState :=
  if s.activeTabIndex < prepared.length then
    (setNote s s.activeTabIndex (s.cursorOptionIndexByQuestion.getD s.activeTabIndex 0) value,
     none)
  else (s, none)

/-- The note-editor onSubmit callback of the part_000 session. -/
def editorSubmitStep (prepared : List PreparedQuestion) (s : SessionState) (value : String) :
    SessionState × Option TabsUIState :=
  if prepared.length ≤ s.activeTabIndex then (s, none)
  else
    let qi := s.activeTabIndex
    let pq := prepared.getD qi default
    let oi := s.cursorOptionIndexByQuestion.getD qi 0
    let s1 := setNote s qi oi value
    let trimmed := jsTrim value
    if pq.multi then
      let added := addIndexToSelection (s1.selectedOptionIndexesByQuestion.getD qi []) oi
      let s2 := if trimmed ≠ "" then
          { s1 with selectedOptionIndexesByQuestion :=
              s1.selectedOptionIndexesByQuestion.set qi added }
        else s1
      if oi = pq.otherOptionIndex ∧ trimmed = "" then (s2, none)
      else ({ s2 with isNoteEditorOpen := false }, none)
    else
      let s2 := { s1 with selectedOptionIndexesByQuestion :=
          s1.selectedOptionIndexesByQuestion.set qi [oi] }
      if oi = pq.otherOptionIndex ∧ trimmed = "" then (s2, none)
      else
        let s3 := { s2 with isNoteEditorOpen := false }
        ({ s3 with activeTabIndex := min prepared.length (qi + 1) }, none)

/-- handleInput of the part_000 session, as the sequence of matchesKey
checks of the source. -/
def keyStep (prepared : List PreparedQuestion) (s : SessionState) (k : Key) :
    SessionState × Option TabsUIState :=
  if s.isNoteEditorOpen then
    if k = .tab ∨ k = .escape then ({ s with isNoteEditorOpen := false }, none)
    else (s, none)
  else if k = .left then
    ({ s with activeTabIndex := (s.activeTabIndex + prepared.length) % (prepared.length + 1) },
     none)
  else if k = .right then
    ({ s with activeTabIndex := (s.activeTabIndex + 1) % (prepared.length + 1) }, none)
  else if s.activeTabIndex = prepared.length then
    if k = .enter then
      if isAllValid prepared s then (s, some (snapshotOf false s)) else (s, none)
    else if k = .escape then (s, some (snapshotOf true s))
    else (s, none)
  else
    let qi := s.activeTabIndex
    let pq := prepared.getD qi default
    if k = .up then
      let moved := s.cursorOptionIndexByQuestion.set qi
        ((s.cursorOptionIndexByQuestion.getD qi 0) - 1)
      ({ s with cursorOptionIndexByQuestion := moved }, none)
    else if k = .down then
      let moved := s.cursorOptionIndexByQuestion.set qi
        (min (pq.options.length - 1) ((s.cursorOptionIndexByQuestion.getD qi 0) + 1))
      ({ s with cursorOptionIndexByQuestion := moved }, none)
    else if k = .tab then ({ s with isNoteEditorOpen := true }, none)
    else if k = .enter then
      let oi := s.cursorOptionIndexByQuestion.getD qi 0
      if pq.multi then
        let current := s.selectedOptionIndexesByQuestion.getD qi []
        let newSel := if oi ∈ current then removeIndexFromSelection current oi
          else addIndexToSelection current oi
        let s1 := { s with selectedOptionIndexesByQuestion :=
            s.selectedOptionIndexesByQuestion.set qi newSel }
        if oi = pq.otherOptionIndex ∧ oi ∈ newSel ∧
            jsTrim ((s1.noteByQuestionByOption.getD qi []).getD oi "") = "" then
          ({ s1 with isNoteEditorOpen := true }, none)
        else (s1, none)
      else
        let s1 := { s with selectedOptionIndexesByQuestion :=
            s.selectedOptionIndexesByQuestion.set qi [oi] }
        if oi = pq.otherOptionIndex ∧
            jsTrim ((s1.noteByQuestionByOption.getD qi []).getD oi "") = "" then
          ({ s1 with isNoteEditorOpen := true }, none)
        else ({ s1 with activeTabIndex := min prepared.length (qi + 1) }, none)
    else if k = .escape then (s, some (snapshotOf true s))
    else (s, none)

/-- One step of the part_000 tabbed session: handleInput for a key press,
and the note-editor onChange and onSubmit callbacks for editor events;
returns the next state and the snapshot passed to done, if any. -/
def step (prepared : List PreparedQuestion) (s : SessionState) (e : TabsEvent) :
    SessionState × Option TabsUIState :=
  match e with
  | .editorChange value => editorChangeStep prepared s value
  | .editorSubmit value => editorSubmitStep prepared s value
  | .key k => keyStep prepared s k

/-- part_000 buildSelectionForQuestion. -/
def buildSelectionForQuestion (question : PreparedQuestion)
    (selectedOptionIndexes : List Nat) (noteByOptionIndex : List String) : AskSelection :=
  if selectedOptionIndexes.length = 0 then ⟨[], none⟩
  else if question.multi then
    buildMultiSelectionResult question.options (selectedOptionIndexes.map Int.ofNat)
      noteByOptionIndex (question.otherOptionIndex : Int)
  else
    let selectedOptionIndex := selectedOptionIndexes.getD 0 0
    let selectedOptionLabel := question.options.getD selectedOptionIndex OTHER_OPTION
    let note := noteByOptionIndex.getD selectedOptionIndex ""
    buildSingleSelectionResult selectedOptionLabel (some note)

/-- The tail of part_000 askQuestionsWithTabs: a cancelled result discards
every selection, otherwise each selection is built from the snapshot. -/
def finalize (prepared : List PreparedQuestion) (result : TabsUIState) :
    Bool × List AskSelection :=
  if result.cancelled then (true, prepared.map fun _ => ⟨[], none⟩)
  else
    (false, prepared.mapIdx fun qi pq =>
      buildSelectionForQuestion pq (result.selectedOptionIndexesByQuestion.getD qi [])
        (result.noteByQuestionByOption.getD qi (List.replicate pq.options.length "")))

/-- Drive the session over a list of events until done fires. -/
def runEvents (prepared : List PreparedQuestion) :
    SessionState → List TabsEvent → Option TabsUIState
  | _, [] => none
  | s, e :: es =>
    match step prepared s e with
    | (_, some out) => some out
    | (s', none) => runEvents prepared s' es

/-- The value askQuestionsWithTabs resolves with for a given event trace. -/
def askQuestionsWithTabsOutcome (questions : List AskQuestion) (events : List TabsEvent) :
    Option (Bool × List AskSelection) :=
  (runEvents (prepareQuestions questions) (initialState questions) events).map
    (finalize (prepareQuestions questions))

end Tabs

namespace LegacyTabs

/-- Prepared question of the legacy tabbed session variant (the module
appended to ask-inline-note.ts): single-select only, options carry the
recommended tag and the appended OTHER option. -/
structure PreparedQuestion where
  id : String
  question : String
  options : List String
  deriving DecidableEq, Repr, Inhabited

/-- Legacy TabsUIState snapshot: the per-question cursor doubles as the
selection, one note per question, plus the answered flags. -/
structure TabsUIState where
  cancelled : Bool
  selectedIndexes : List Nat
  notes : List String
  answered : List Bool
  deriving DecidableEq, Repr, Inhabited

/-- The mutable session variables of the legacy loop. -/
structure SessionState where
  currentTab : Nat
  editMode : Bool
  selectedIndexes : List Nat
  notes : List String
  answered : List Bool
  deriving DecidableEq, Repr, Inhabited

/-- Legacy preparation of one question. -/
def prepareQuestion (q : AskQuestion) : PreparedQuestion :=
  let optionLabels :=
    addRecommendedSuffix (q.options.map AskOption.label) q.recommended ++ [OTHER_OPTION]
  { id := q.id, question := q.question, options := optionLabels }

def prepareQuestions (questions : List AskQuestion) : List PreparedQuestion :=
  questions.map prepareQuestion

/-- Legacy initial state: the cursor-selection starts at the clamped
recommended index, no notes, nothing answered. -/
def initialState (questions : List AskQuestion) : SessionState :=
  let prepared := prepareQuestions questions
  { currentTab := 0
    editMode := false
    selectedIndexes :=
      questions.map fun q => clampIndex q.recommended (prepareQuestion q).options.length
    notes := prepared.map fun _ => ""
    answered := prepared.map fun _ => false }

/-- Legacy getSelectedOption: the option under the per-question cursor,
falling back to OTHER. -/
def getSelectedOption (prepared : List PreparedQuestion) (s : SessionState)
    (questionIndex : Nat) : String :=
  (prepared.getD questionIndex default).options.getD
    (s.selectedIndexes.getD questionIndex 0) OTHER_OPTION

/-- Legacy getNote: the trimmed per-question note. -/
def getNote (s : SessionState) (questionIndex : Nat) : String :=
  jsTrim (s.notes.getD questionIndex "")

/-- Legacy isAnswerValid: answered, and a non-empty note when the cursor
rests on OTHER. -/
def isAnswerValid (prepared : List PreparedQuestion) (s : SessionState)
    (questionIndex : Nat) : Bool :=
  if ¬ s.answered.getD questionIndex false then false
  else if getSelectedOption prepared s questionIndex = OTHER_OPTION then
    decide ((getNote s questionIndex).data.length > 0)
  else true

/-- Legacy allAnswered. -/
def allAnswered (prepared : List PreparedQuestion) (s : SessionState) : Bool :=
  (List.range prepared.length).all (isAnswerValid prepared s)

/-- Legacy gotoSubmitIfLast. -/
def gotoSubmitIfLast (prepared : List PreparedQuestion) (currentTab : Nat) : Nat :=
  if prepared.length - 1 ≤ currentTab then prepared.length else currentTab + 1

/-- The snapshot done receives in the legacy variant. -/
def snapshotOf (cancelled : Bool) (s : SessionState) : TabsUIState :=
  ⟨cancelled, s.selectedIndexes, s.notes, s.answered⟩

/-- The note-editor onChange callback of the legacy session. -/
def editorChangeStep (prepared : List PreparedQuestion) (s : SessionState) (value : String) :
    SessionState × Option TabsUIState :=
  if s.currentTab < prepared.length then
    ({ s with notes := s.notes.set s.currentTab value }, none)
  else (s, none)

/-- The note-editor onSubmit callback of the legacy session. -/
def editorSubmitStep (prepared : List PreparedQuestion) (s : SessionState) (value : String) :
    SessionState × Option TabsUIState :=
  if prepared.length ≤ s.currentTab then (s, none)
  else
    let s1 := { s with notes := s.notes.set s.currentTab value }
    if getSelectedOption prepared s1 s1.currentTab = OTHER_OPTION ∧
        getNote s1 s1.currentTab = "" then
      (s1, none)
    else
      let s2 := { s1 with answered := s1.answered.set s1.currentTab true, editMode := false }
      ({ s2 with currentTab := gotoSubmitIfLast prepared s2.currentTab }, none)

/-- handleInput of the legacy session, as the sequence of matchesKey
checks of the source. -/
def keyStep (prepared : List PreparedQuestion) (s : SessionState) (k : Key) :
    SessionState × Option TabsUIState :=
  if s.editMode then
    if k = .tab ∨ k = .escape then ({ s with editMode := false }, none)
    else (s, none)
  else if k = .left then
    ({ s with currentTab := (s.currentTab + prepared.length) % (prepared.length + 1) }, none)
  else if k = .right then
    ({ s with currentTab := (s.currentTab + 1) % (prepared.length + 1) }, none)
  else if s.currentTab = prepared.length then
    if k = .enter then
      if allAnswered prepared s then (s, some (snapshotOf false s)) else (s, none)
    else if k = .escape then (s, some (snapshotOf true s))
    else (s, none)
  else
    let pq := prepared.getD s.currentTab default
    if k = .up then
      let moved := s.selectedIndexes.set s.currentTab
        ((s.selectedIndexes.getD s.currentTab 0) - 1)
      ({ s with selectedIndexes := moved }, none)
    else if k = .down then
      let moved := s.selectedIndexes.set s.currentTab
        (min (pq.options.length - 1) ((s.selectedIndexes.getD s.currentTab 0) + 1))
      ({ s with selectedIndexes := moved }, none)
    else if k = .tab then ({ s with editMode := true }, none)
    else if k = .enter then
      let s1 := { s with answered := s.answered.set s.currentTab true }
      if getSelectedOption prepared s1 s1.currentTab = OTHER_OPTION ∧
          getNote s1 s1.currentTab = "" then
        ({ s1 with editMode := true }, none)
      else
        ({ s1 with currentTab := gotoSubmitIfLast prepared s1.currentTab }, none)
    else if k = .escape then (s, some (snapshotOf true s))
    else (s, none)

/-- One step of the legacy tabbed session. -/
def step (prepared : List PreparedQuestion) (s : SessionState) (e : TabsEvent) :
    SessionState × Option TabsUIState :=
  match e with
  | .editorChange value => editorChangeStep prepared s value
  | .editorSubmit value => editorSubmitStep prepared s value
  | .key k => keyStep prepared s k

/-- The tail of the legacy askQuestionsWithTabs: a question keeps its
built selection whenever it was answered, even on a cancelled result. -/
def finalize (prepared : List PreparedQuestion) (result : TabsUIState) :
    Bool × List AskSelection :=
  (result.cancelled,
   prepared.mapIdx fun questionIndex pq =>
     if ¬ result.answered.getD questionIndex false then ⟨[], none⟩
     else
       buildSingleSelection (pq.options.getD (result.selectedIndexes.getD questionIndex 0) "")
         (some (result.notes.getD questionIndex "")))

/-- Drive the legacy session over a list of events until done fires. -/
def runEvents (prepared : List PreparedQuestion) :
    SessionState → List TabsEvent → Option TabsUIState
  | _, [] => none
  | s, e :: es =>
    match step prepared s e with
    | (_, some out) => some out
    | (s', none) => runEvents prepared s' es

/-- The value the legacy askQuestionsWithTabs resolves with for a given
event trace. -/
def askQuestionsWithTabsOutcome (questions : List AskQuestion) (events : List TabsEvent) :
    Option (Bool × List AskSelection) :=
  (runEvents (prepareQuestions questions) (initialState questions) events).map
    (finalize (prepareQuestions questions))

end LegacyTabs

/-! ## The ask tool execute layer: routing and returned payloads -/

/-- The structured details payload of the ask tool response. -/
structure AskToolDetails where
  id : Option String := none
  question : Option String := none
  options : Option (List String) := none
  multi : Option Bool := none
  selectedOptions : Option (List String) := none
  customInput : Option String := none
  results : Option (List QuestionResult) := none
  deriving DecidableEq, Repr, Inhabited

/-- Which interactive session a call to execute runs. -/
inductive SessionRoute where
  | inlineSingle (q : AskQuestion)
  | tabbed (questions : List AskQuestion)
  | checkboxLoop (q : AskQuestion)
  | sequentialEach (questions : List AskQuestion)
  deriving DecidableEq, Repr

/-- The discriminated result of execute. -/
inductive ExecOutcome where
  | noInteractiveUI
  | emptyQuestions
  | ran (route : SessionRoute) (content : String) (details : AskToolDetails)
  deriving DecidableEq, Repr

/-- The per-question result record execute builds from the original
question fields and the selection the session returned. -/
def mkQuestionResult (q : AskQuestion) (selection : AskSelection) : QuestionResult :=
  { id := q.id
    question := q.question
    options := q.options.map AskOption.label
    multi := q.multi.getD false
    selectedOptions := selection.selectedOptions
    customInput := selection.customInput }

/-- The part_000 variant of execute, with the selections the interactive
session resolves with passed in as data: a single multi question and any
call with two or more questions run the tabbed session, a single
non-multi question runs the inline single-question session; the response
carries the transcript as content and the raw results as details. -/
def executeCurrent (hasUI : Bool) (questions : List AskQuestion)
    (sessionSelections : List AskSelection) : ExecOutcome :=
  if ¬ hasUI then .noInteractiveUI
  else
    match questions with
    | [] => .emptyQuestions
    | [q] =>
      let selection := sessionSelections.getD 0 ⟨[], none⟩
      let result := mkQuestionResult q selection
      let details : AskToolDetails :=
        { id := some q.id
          question := some q.question
          options := some (q.options.map AskOption.label)
          multi := some (q.multi.getD false)
          selectedOptions := some selection.selectedOptions
          customInput := selection.customInput
          results := some [result] }
      .ran (if q.multi = some true then .tabbed [q] else .inlineSingle q)
        (buildAskSessionContent [result]) details
    | q0 :: q1 :: rest =>
      let qs := q0 :: q1 :: rest
      let results := qs.mapIdx fun i q => mkQuestionResult q (sessionSelections.getD i ⟨[], none⟩)
      .ran (.tabbed qs) (buildAskSessionContent results) { results := some results }

/-- The session the legacy execute variant (src/index.ts) runs for a
question list: a single multi question goes to the checkbox select loop
of askQuestion, two or more questions go to the tabbed session only when
none of them is multi, otherwise each question is asked by its own
sequential session. -/
def routeLegacy (questions : List AskQuestion) : Option SessionRoute :=
  match questions with
  | [] => none
  | [q] => some (if q.multi = some true then .checkboxLoop q else .inlineSingle q)
  | q0 :: q1 :: rest =>
    let qs := q0 :: q1 :: rest
    if qs.any fun q => q.multi = some true then some (.sequentialEach qs)
    else some (.tabbed qs)

/-- The session route of an execute outcome. -/
def ExecOutcome.routeOf : ExecOutcome → Option SessionRoute
  | .ran route _ _ => some route
  | _ => none

/-! ## Basic string lemmas -/

theorem String.eq_iff_data (s t : String) : s = t ↔ s.data = t.data := by
  constructor
  · intro h; rw [h]
  · intro h; cases s; cases t; exact congrArg String.mk h

theorem String.eq_empty_iff_data (s : String) : s = "" ↔ s.data = [] := by
  rw [String.eq_iff_data]

theorem strip_append_tag (label : String) :
    stripRecommendedSuffix (label ++ RECOMMENDED_SUFFIX) = label := by
  have hsuf : RECOMMENDED_SUFFIX.data.isSuffixOf (label ++ RECOMMENDED_SUFFIX).data = true := by
    rw [List.isSuffixOf_iff_suffix, String.data_append]
    exact List.suffix_append _ _
  rw [stripRecommendedSuffix, if_pos hsuf, String.data_append, List.length_append,
    Nat.add_sub_cancel, List.take_left]

theorem hasRecommendedTag_append (label : String) :
    hasRecommendedTag (label ++ RECOMMENDED_SUFFIX) = true := by
  rw [hasRecommendedTag, List.isSuffixOf_iff_suffix, String.data_append]
  exact List.suffix_append _ _

theorem strip_of_not_tag (label : String) (h : hasRecommendedTag label = false) :
    stripRecommendedSuffix label = label := by
  rw [stripRecommendedSuffix, if_neg]
  intro hc
  rw [hasRecommendedTag] at h
  rw [h] at hc
  exact Bool.false_ne_true hc

theorem strip_tagLabel (label : String) :
    stripRecommendedSuffix (tagLabel label) = stripRecommendedSuffix label := by
  rw [tagLabel]
  by_cases h : hasRecommendedTag label
  · rw [if_pos h]
  · rw [if_neg h, strip_append_tag, strip_of_not_tag label (Bool.eq_false_iff.mpr h)]

theorem hasRecommendedTag_tagLabel (label : String) :
    hasRecommendedTag (tagLabel label) = true := by
  rw [tagLabel]
  by_cases h : hasRecommendedTag label
  · rw [if_pos h]; exact h
  · rw [if_neg h]; exact hasRecommendedTag_append label

theorem tagLabel_tagLabel (label : String) : tagLabel (tagLabel label) = tagLabel label := by
  conv_lhs => rw [tagLabel]
  rw [if_pos (hasRecommendedTag_tagLabel label)]

/-! ## tagAt lemmas -/

theorem tagAt_length (r : Int) (i : Nat) (l : List String) :
    (tagAt r i l).length = l.length := by
  induction l generalizing i with
  | nil => rfl
  | cons x xs ih => simp [tagAt, ih]

theorem tagAt_getD (r : Int) (l : List String) (i k : Nat) (hk : k < l.length) :
    (tagAt r i l).getD k "" =
      if ((i + k : Nat) : Int) = r then tagLabel (l.getD k "") else l.getD k "" := by
  induction l generalizing i k with
  | nil => simp at hk
  | cons x xs ih =>
    cases k with
    | zero => simp [tagAt]
    | succ k =>
      have hk' : k < xs.length := Nat.lt_of_succ_lt_succ hk
      have := ih (i + 1) k hk'
      simp only [tagAt, List.getD_cons_succ, this]
      have harith : ((i + 1 + k : Nat) : Int) = ((i + (k + 1) : Nat) : Int) := by
        push_cast; ring
      rw [harith]

theorem tagAt_idem (r : Int) (i : Nat) (l : List String) :
    tagAt r i (tagAt r i l) = tagAt r i l := by
  induction l generalizing i with
  | nil => rfl
  | cons x xs ih =>
    simp only [tagAt]
    by_cases h : ((i : Nat) : Int) = r
    · rw [if_pos h, if_pos h, tagLabel_tagLabel, ih]
    · rw [if_neg h, if_neg h, ih]

theorem addRecommendedSuffix_length (l : List String) (r : Option Int) :
    (addRecommendedSuffix l r).length = l.length := by
  cases r with
  | none => rfl
  | some rr =>
    rw [addRecommendedSuffix]
    by_cases h : rr < 0 ∨ (l.length : Int) ≤ rr
    · rw [if_pos h]
    · rw [if_neg h]; exact tagAt_length rr 0 l

/-! ## Claim C7: recommended tag round trip and idempotence -/

/-- Claim C7 (amended): addRecommendedSuffix returns the labels unchanged
for a null or out-of-range index and is idempotent; for an in-range index
the tagged label strips back to the stripped original label, which is the
original label itself whenever it did not already carry the tag. -/
theorem claim_C7_recommended_tag_roundtrip (L : List String) (r : Option Int) (i : Nat) :
    (addRecommendedSuffix L none = L) ∧
    (∀ rr : Int, rr < 0 ∨ (L.length : Int) ≤ rr → addRecommendedSuffix L (some rr) = L) ∧
    (addRecommendedSuffix (addRecommendedSuffix L r) r = addRecommendedSuffix L r) ∧
    (i < L.length →
      stripRecommendedSuffix ((addRecommendedSuffix L (some (i : Int))).getD i "") =
        stripRecommendedSuffix (L.getD i "")) ∧
    (i < L.length → hasRecommendedTag (L.getD i "") = false →
      stripRecommendedSuffix ((addRecommendedSuffix L (some (i : Int))).getD i "") =
        L.getD i "") := by
  have hinrange : ∀ (k : Nat), k < L.length →
      addRecommendedSuffix L (some (k : Int)) = tagAt (k : Int) 0 L := by
    intro k hk
    rw [addRecommendedSuffix, if_neg]
    push_neg
    exact ⟨Int.natCast_nonneg k, by exact_mod_cast hk⟩
  have hget : ∀ (k : Nat), k < L.length →
      (addRecommendedSuffix L (some (k : Int))).getD k "" = tagLabel (L.getD k "") := by
    intro k hk
    rw [hinrange k hk, tagAt_getD (k : Int) L 0 k hk, if_pos (by push_cast; ring)]
  refine ⟨rfl, ?_, ?_, ?_, ?_⟩
  · intro rr hrr
    rw [addRecommendedSuffix, if_pos hrr]
  · cases r with
    | none => rfl
    | some rr =>
      by_cases h : rr < 0 ∨ (L.length : Int) ≤ rr
      · have hL : addRecommendedSuffix L (some rr) = L := by
          rw [addRecommendedSuffix, if_pos h]
        rw [hL]; exact hL
      · have hL : addRecommendedSuffix L (some rr) = tagAt rr 0 L := by
          rw [addRecommendedSuffix, if_neg h]
        have h2 : ¬(rr < 0 ∨ ((tagAt rr 0 L).length : Int) ≤ rr) := by
          rw [tagAt_length]; exact h
        rw [hL, addRecommendedSuffix, if_neg h2]
        exact tagAt_idem rr 0 L
  · intro hi
    rw [hget i hi, strip_tagLabel]
  · intro hi htag
    rw [hget i hi, tagLabel, if_neg (by rw [htag]; exact Bool.false_ne_true),
      strip_append_tag]

/-- Claim C7 counterexample: for a label that already carries the tag,
appendRecommendedTag leaves it unchanged and stripRecommendedTag then
removes the pre-existing tag, so the round trip does not return the
original label. -/
theorem claim_C7_counterexample :
    stripRecommendedSuffix ((addRecommendedSuffix ["x (Recommended)"] (some 0)).getD 0 "") = "x" ∧
    ("x" : String) ≠ "x (Recommended)" := by
  refine ⟨?_, by decide⟩
  rfl

/-! ## Claim C2: buildSingleSelection -/

/-- Claim C2: buildSingleSelection strips the recommended tag; the OTHER
label yields an empty selection whose custom input is the trimmed note
exactly when that is non-empty; any other label yields the single entry
joined with the non-empty trimmed note by the literal separator, or the
bare label. -/
theorem claim_C2_buildSingleSelection (choiceLabel : String) (note : Option String) :
    (stripRecommendedSuffix choiceLabel = OTHER_OPTION → jsTrim (note.getD "") = "" →
      buildSingleSelection choiceLabel note = ⟨[], none⟩) ∧
    (stripRecommendedSuffix choiceLabel = OTHER_OPTION → jsTrim (note.getD "") ≠ "" →
      buildSingleSelection choiceLabel note = ⟨[], some (jsTrim (note.getD ""))⟩) ∧
    (stripRecommendedSuffix choiceLabel ≠ OTHER_OPTION → jsTrim (note.getD "") = "" →
      buildSingleSelection choiceLabel note = ⟨[stripRecommendedSuffix choiceLabel], none⟩) ∧
    (stripRecommendedSuffix choiceLabel ≠ OTHER_OPTION → jsTrim (note.getD "") ≠ "" →
      buildSingleSelection choiceLabel note =
        ⟨[stripRecommendedSuffix choiceLabel ++ " - " ++ jsTrim (note.getD "")], none⟩) := by
  refine ⟨?_, ?_, ?_, ?_⟩ <;> intro h1 h2 <;> simp [buildSingleSelection, h1, h2]

/-- Claim C2 witness: the spec test vectors for buildSingleSelection. -/
theorem claim_C2_witness :
    buildSingleSelection OTHER_OPTION (some "") = ⟨[], none⟩ ∧
    buildSingleSelection OTHER_OPTION (some "x") = ⟨[], some "x"⟩ ∧
    buildSingleSelection "Session auth (Recommended)" (some "split-session") =
      ⟨["Session auth - split-session"], none⟩ := by
  have h := claim_C2_buildSingleSelection OTHER_OPTION (some "")
  have h2 := claim_C2_buildSingleSelection OTHER_OPTION (some "x")
  have h3 := claim_C2_buildSingleSelection "Session auth (Recommended)" (some "split-session")
  refine ⟨h.1 (by decide) (by decide), ?_, ?_⟩
  · have := h2.2.1 (by decide) (by decide)
    rw [this]; decide
  · have := h3.2.2.2 (by decide) (by decide)
    rw [this]; decide

/-! ## Claim C1: buildMultiSelection -/

theorem multiGo_fst (L : List String) (S : List Int) (N : List String) (O : Int)
    (idxs : List Nat) :
    (multiGo L S N O idxs).1 =
      (idxs.filter fun i : Nat => decide ((i : Int) ∈ S ∧ (i : Int) ≠ O)).map
        (fun i => fmtOptionWithNote (stripRecommendedSuffix (L.getD i ""))
          (jsTrim (N.getD i ""))) := by
  induction idxs with
  | nil => rfl
  | cons i rest ih =>
    by_cases hmem : (i : Int) ∈ S
    · by_cases hother : (i : Int) = O
      · subst hother
        simp [multiGo, hmem, ih, List.filter_cons]
      · simp [multiGo, hmem, hother, ih, List.filter_cons]
    · simp [multiGo, hmem, ih, List.filter_cons]

theorem multiGo_snd (L : List String) (S : List Int) (N : List String) (O : Int)
    (idxs : List Nat) :
    (multiGo L S N O idxs).2 =
      if idxs.any fun i : Nat =>
          decide ((i : Int) ∈ S ∧ (i : Int) = O ∧ jsTrim (N.getD i "") ≠ "") then
        some (jsTrim (N.getD O.toNat ""))
      else none := by
  induction idxs with
  | nil => rfl
  | cons i rest ih =>
    by_cases hmem : (i : Int) ∈ S
    · by_cases hother : (i : Int) = O
      · subst hother
        simp only [multiGo, if_pos hmem]
        rw [ih, Int.toNat_natCast, List.any_cons]
        cases hA : (rest.any fun k : Nat => decide ((k : Int) ∈ S ∧ (k : Int) = (i : Int) ∧
            jsTrim (N.getD k "") ≠ "")) <;>
          by_cases hnote : jsTrim (N.getD i "") = "" <;>
          simp [Option.or, hnote, hmem]
      · simp [multiGo, hmem, hother, ih, List.any_cons]
    · simp [multiGo, hmem, ih, List.any_cons]

theorem multiGo_congr (L : List String) (S S' : List Int) (N : List String) (O : Int)
    (idxs : List Nat) (h : ∀ j : Int, j ∈ S' ↔ j ∈ S) :
    multiGo L S' N O idxs = multiGo L S N O idxs := by
  induction idxs with
  | nil => rfl
  | cons i rest ih =>
    by_cases hmem : (i : Int) ∈ S
    · have hmem' : (i : Int) ∈ S' := (h i).mpr hmem
      simp only [multiGo, ih, if_pos hmem, if_pos hmem']
    · have hmem' : ¬ (i : Int) ∈ S' := fun hc => hmem ((h i).mp hc)
      simp only [multiGo, ih, if_neg hmem, if_neg hmem']

/-- Claim C1: buildMultiSelection emits selected options in option-list
order with the tag stripped and the non-empty trimmed note joined on,
turns a non-empty trimmed note at a selected in-range otherIndex into the
custom input while dropping that entry, depends only on membership of the
selected-index list (so selection order is irrelevant), and ignores
selected indexes outside the option list. -/
theorem claim_C1_buildMultiSelection (L : List String) (S : List Int) (N : List String)
    (O : Int) :
    ((buildMultiSelection L S N O).selectedOptions =
      ((List.range L.length).filter fun i : Nat => decide ((i : Int) ∈ S ∧ (i : Int) ≠ O)).map
        (fun i => fmtOptionWithNote (stripRecommendedSuffix (L.getD i ""))
          (jsTrim (N.getD i "")))) ∧
    ((buildMultiSelection L S N O).customInput =
      if O ∈ S ∧ 0 ≤ O ∧ O < (L.length : Int) ∧ jsTrim (N.getD O.toNat "") ≠ "" then
        some (jsTrim (N.getD O.toNat ""))
      else none) ∧
    (∀ S' : List Int, (∀ j : Int, j ∈ S' ↔ j ∈ S) →
      buildMultiSelection L S' N O = buildMultiSelection L S N O) ∧
    (∀ j : Int, j < 0 ∨ (L.length : Int) ≤ j →
      buildMultiSelection L (j :: S) N O = buildMultiSelection L S N O) := by
  refine ⟨?_, ?_, ?_, ?_⟩
  · exact multiGo_fst L S N O (List.range L.length)
  · show (multiGo L S N O (List.range L.length)).2 = _
    rw [multiGo_snd]
    by_cases hc : O ∈ S ∧ 0 ≤ O ∧ O < (L.length : Int) ∧ jsTrim (N.getD O.toNat "") ≠ ""
    · rw [if_pos hc, if_pos]
      rw [List.any_eq_true]
      refine ⟨O.toNat, ?_, ?_⟩
      · rw [List.mem_range]
        have := hc.2.2.1
        omega
      · have hON : ((O.toNat : Nat) : Int) = O := Int.toNat_of_nonneg hc.2.1
        rw [decide_eq_true_eq, hON]
        exact ⟨hc.1, rfl, hc.2.2.2⟩
    · rw [if_neg hc, if_neg]
      rw [List.any_eq_true]
      rintro ⟨i, hi, hP⟩
      simp only [decide_eq_true_eq] at hP
      rw [List.mem_range] at hi
      apply hc
      obtain ⟨hmem, hiO, hnote⟩ := hP
      refine ⟨hiO ▸ hmem, hiO ▸ Int.natCast_nonneg i, ?_, ?_⟩
      · rw [← hiO]; exact_mod_cast hi
      · rw [← hiO, Int.toNat_natCast]; exact hnote
  · intro S' h
    show (⟨(multiGo L S' N O (List.range L.length)).1,
      (multiGo L S' N O (List.range L.length)).2⟩ : AskSelection) = _
    rw [multiGo_congr L S S' N O _ h]
    rfl
  · intro j hj
    show (⟨(multiGo L (j :: S) N O (List.range L.length)).1,
      (multiGo L (j :: S) N O (List.range L.length)).2⟩ : AskSelection) = _
    have hcongr : ∀ idxs : List Nat, (∀ i ∈ idxs, i < L.length) →
        multiGo L (j :: S) N O idxs = multiGo L S N O idxs := by
      intro idxs
      induction idxs with
      | nil => intro _; rfl
      | cons i rest ih =>
        intro hbound
        have hiL : i < L.length := hbound i (List.mem_cons_self i rest)
        have hne : (i : Int) ≠ j := by
          rcases hj with hneg | hbig
          · intro hc; rw [← hc] at hneg; omega
          · intro hc; rw [← hc] at hbig
            have : (i : Int) < (L.length : Int) := by exact_mod_cast hiL
            omega
        have hmem_iff : ((i : Int) ∈ j :: S) ↔ ((i : Int) ∈ S) := by
          simp [List.mem_cons, hne]
        have ihrest := ih (fun x hx => hbound x (List.mem_cons_of_mem i hx))
        by_cases hmem : (i : Int) ∈ S
        · simp only [multiGo, ihrest, if_pos hmem, if_pos (hmem_iff.mpr hmem)]
        · simp only [multiGo, ihrest, if_neg hmem, if_neg (fun hc => hmem (hmem_iff.mp hc))]
    rw [hcongr (List.range L.length) (fun i hi => List.mem_range.mp hi)]
    rfl

/-! ## Claim C9: the inline-note sanitizer -/

/-- A C0 control character. -/
def isC0Control (c : Char) : Bool := decide (c.toNat < 0x20)

/-- The DEL character. -/
def isDelChar (c : Char) : Bool := decide (c.toNat = 0x7F)

/-- A C1 control character, U+0080 to U+009F. -/
def isC1Control (c : Char) : Bool := decide (0x80 ≤ c.toNat) && decide (c.toNat ≤ 0x9F)

/-- One character of the inline sanitizer, stated over character classes:
CR, LF and TAB each become a space; the remaining C0 controls and DEL are
dropped; every other character, C1 controls included, is kept. -/
def inlineSanitizeSpecStep (c : Char) (acc : List Char) : List Char :=
  if isCrLfTab c then ' ' :: acc
  else if isC0Control c || isDelChar c then acc
  else c :: acc

theorem isStrippedCtl_eq_classes (c : Char) (h : isCrLfTab c = false) :
    isStrippedCtl c = (isC0Control c || isDelChar c) := by
  rw [Bool.eq_iff_iff]
  simp only [isStrippedCtl, isC0Control, isDelChar, isCrLfTab, Bool.or_eq_true,
    Bool.and_eq_true, Bool.or_eq_false_iff, decide_eq_true_eq,
    decide_eq_false_iff_not] at *
  omega

/-- Claim C9 (amended): the inline sanitizer replaces CR, LF and TAB with
single spaces and strips the remaining C0 controls and DEL, keeping every
other character, C1 controls and the edit-cursor glyph included. -/
theorem claim_C9_inline_sanitizer (s : String) :
    ((sanitizeNoteForInlineDisplay s).data = s.data.foldr inlineSanitizeSpecStep []) ∧
    (∀ c : Char, isC1Control c = true →
      sanitizeNoteForInlineDisplay (String.mk [c]) = String.mk [c]) ∧
    (sanitizeNoteForInlineDisplay INLINE_EDIT_CURSOR = INLINE_EDIT_CURSOR) := by
  have hchar : ∀ l : List Char,
      ((l.map fun c => if isCrLfTab c then ' ' else c).filter fun c => !isStrippedCtl c) =
        l.foldr inlineSanitizeSpecStep [] := by
    intro l
    induction l with
    | nil => rfl
    | cons c rest ih =>
      by_cases hcr : isCrLfTab c = true
      · have hsp : (!isStrippedCtl ' ') = true := by decide
        simp [inlineSanitizeSpecStep, hcr, ih, List.filter_cons, hsp]
      · have hcr' : isCrLfTab c = false := Bool.eq_false_iff.mpr hcr
        have hcl := isStrippedCtl_eq_classes c hcr'
        by_cases hstr : isStrippedCtl c = true
        · simp [inlineSanitizeSpecStep, hcr', ih, List.filter_cons, hstr, ← hcl]
        · have hstr' : isStrippedCtl c = false := Bool.eq_false_iff.mpr hstr
          simp [inlineSanitizeSpecStep, hcr', ih, List.filter_cons, hstr', ← hcl]
  refine ⟨hchar s.data, ?_, by decide⟩
  intro c hc
  have hn : 0x80 ≤ c.toNat ∧ c.toNat ≤ 0x9F := by
    simpa [isC1Control] using hc
  have h1 : isCrLfTab c = false := by
    simp only [isCrLfTab, Bool.or_eq_false_iff, decide_eq_false_iff_not]
    omega
  have h2 : isStrippedCtl c = false := by
    simp only [isStrippedCtl, Bool.or_eq_false_iff, Bool.and_eq_false_iff,
      decide_eq_false_iff_not]
    omega
  simp [sanitizeNoteForInlineDisplay, h1, h2]

/-- Claim C9 counterexample: the C1 control U+0085 passes through the
inline sanitizer unchanged, so the sanitizer does not strip C1 control
characters. -/
theorem claim_C9_counterexample :
    sanitizeNoteForInlineDisplay (String.mk [Char.ofNat 0x85]) = String.mk [Char.ofNat 0x85] ∧
    isC1Control (Char.ofNat 0x85) = true ∧
    String.mk [Char.ofNat 0x85] ≠ "" := by
  refine ⟨by decide, by decide, by decide⟩

/-! ## Claim C10: the renamed duplicate implementations -/

theorem tagOptionAt_eq_tagAt (r : Int) (i : Nat) (l : List String) :
    tagOptionAt r i l = tagAt r i l := by
  induction l generalizing i with
  | nil => rfl
  | cons x xs ih =>
    simp only [tagOptionAt, tagAt, ih]
    rfl

theorem multiResultGo_eq_multiGo (L : List String) (S : List Int) (N : List String)
    (O : Int) (idxs : List Nat) :
    multiResultGo L S N O idxs = multiGo L S N O idxs := by
  induction idxs with
  | nil => rfl
  | cons i rest ih =>
    simp only [multiResultGo, multiGo, ih]
    rfl

/-- Concrete two-question configuration used to compare the two tab-UI
variants event by event. -/
def exampleAuthQuestion : AskQuestion :=
  { id := "auth", question := "Which auth?", options := [⟨"JWT"⟩] }

def exampleCacheQuestion : AskQuestion :=
  { id := "cache", question := "Which cache?", options := [⟨"None"⟩] }

/-- Claim C10 (amended): the renamed duplicate pure functions are
extensionally equal pair by pair (recommended-tag append and strip,
single- and multi-selection builders, and the two copies of the inline
note formatter), while the two tab-UI variants are not equivalent: they
disagree on cancelled sessions, as the counterexample shows. -/
theorem claim_C10_duplicate_equivalence :
    (∀ (labels : List String) (r : Option Int),
      appendRecommendedTagToOptionLabels labels r = addRecommendedSuffix labels r) ∧
    (∀ label : String, removeRecommendedTagFromOptionLabel label = stripRecommendedSuffix label) ∧
    (∀ (label : String) (note : Option String),
      buildSingleSelectionResult label note = buildSingleSelection label note) ∧
    (∀ (L : List String) (S : List Int) (N : List String) (O : Int),
      buildMultiSelectionResult L S N O = buildMultiSelection L S N O) ∧
    (∀ (label note : String) (editing : Bool) (m : Option Int),
      InlineNoteCopy.buildOptionLabelWithInlineNote label note editing m =
        buildOptionLabelWithInlineNote label note editing m) := by
  refine ⟨?_, fun _ => rfl, fun _ _ => rfl, ?_, fun _ _ _ _ => rfl⟩
  · intro labels r
    cases r with
    | none => rfl
    | some rr =>
      simp only [appendRecommendedTagToOptionLabels, addRecommendedSuffix,
        tagOptionAt_eq_tagAt]
  · intro L S N O
    simp only [buildMultiSelectionResult, buildMultiSelection, multiResultGo_eq_multiGo]

/-- Claim C10 counterexample: the same two-question call and the same
event trace (answer the first question, then cancel) give different
selections in the two tab-UI variants: the current variant discards the
first answer, the legacy variant keeps it. -/
theorem claim_C10_counterexample :
    Tabs.askQuestionsWithTabsOutcome [exampleAuthQuestion, exampleCacheQuestion]
      [.key .enter, .key .escape] = some (true, [⟨[], none⟩, ⟨[], none⟩]) ∧
    LegacyTabs.askQuestionsWithTabsOutcome [exampleAuthQuestion, exampleCacheQuestion]
      [.key .enter, .key .escape] = some (true, [⟨["JWT"], none⟩, ⟨[], none⟩]) ∧
    ((some (true, [⟨[], none⟩, ⟨[], none⟩]) : Option (Bool × List AskSelection)) ≠
      some (true, [⟨["JWT"], none⟩, ⟨[], none⟩])) := by
  refine ⟨by decide, by decide, by decide⟩

/-! ## Claim C4: cancellation of the current tabbed session -/

/-- Claim C4 (amended): in the current tabbed session (ask-tabs-ui), the
cancel action in any browsing state resolves the session with a cancelled
snapshot of the untouched state, a cancelled snapshot is finalized to the
empty selection for every question regardless of accumulated state, and
the summary line of an empty cancelled selection reads (cancelled); the
legacy variant instead keeps answered selections on cancel, as the
counterexample shows. -/
theorem claim_C4_cancel_discards (prepared : List Tabs.PreparedQuestion)
    (s : Tabs.SessionState) (result : Tabs.TabsUIState) (q : AskQuestion) :
    (s.isNoteEditorOpen = false →
      Tabs.step prepared s (.key .escape) = (s, some (Tabs.snapshotOf true s))) ∧
    (result.cancelled = true →
      Tabs.finalize prepared result = (true, prepared.map fun _ => ⟨[], none⟩)) ∧
    (formatQuestionResult (toSessionSafeQuestionResult (mkQuestionResult q ⟨[], none⟩)) =
      (if (sanitizeForSessionText q.id).data.length = 0 then "(unknown)"
       else sanitizeForSessionText q.id) ++ ": (cancelled)") := by
  refine ⟨?_, ?_, ?_⟩
  · intro hopen
    by_cases htab : s.activeTabIndex = prepared.length <;>
      simp [Tabs.step, Tabs.keyStep, hopen, htab]
  · intro hcanc
    rw [Tabs.finalize, if_pos hcanc]
  · simp only [formatQuestionResult, toSessionSafeQuestionResult, mkQuestionResult,
      formatSelectionForSummary, hasCustomInputText]
    simp only [List.map_nil, List.filter_nil, List.length_nil, Option.getD_none]
    have hjoin : (": " : String) ++ "(cancelled)" = ": (cancelled)" := by decide
    rw [← hjoin, ← String.append_assoc]
    simp

/-- Claim C4 counterexample: in the legacy variant appended to
ask-inline-note.ts, answering the first question and then cancelling
yields a cancelled result whose first selection is not empty, so
cancellation does not discard the partial state there. -/
theorem claim_C4_counterexample :
    LegacyTabs.askQuestionsWithTabsOutcome [exampleAuthQuestion, exampleCacheQuestion]
      [.key .enter, .key .escape] = some (true, [⟨["JWT"], none⟩, ⟨[], none⟩]) ∧
    ((⟨["JWT"], none⟩ : AskSelection) ≠ ⟨[], none⟩) := by
  refine ⟨by decide, by decide⟩

/-! ## Claim C3: validity and the submit gate -/

theorem String.ne_empty_iff_len (s : String) : s ≠ "" ↔ 0 < s.data.length := by
  rw [Ne, String.eq_empty_iff_data]
  exact (List.length_pos (l := s.data)).symm

theorem Tabs.editorChangeStep_snd (prepared : List Tabs.PreparedQuestion)
    (s : Tabs.SessionState) (v : String) : (Tabs.editorChangeStep prepared s v).2 = none := by
  unfold Tabs.editorChangeStep
  split_ifs <;> rfl

theorem Tabs.editorSubmitStep_snd (prepared : List Tabs.PreparedQuestion)
    (s : Tabs.SessionState) (v : String) : (Tabs.editorSubmitStep prepared s v).2 = none := by
  simp only [Tabs.editorSubmitStep]
  split_ifs <;> rfl

theorem Tabs.keyStep_enter_question_snd (prepared : List Tabs.PreparedQuestion)
    (s : Tabs.SessionState) (hopen : ¬ s.isNoteEditorOpen = true)
    (htab : ¬ s.activeTabIndex = prepared.length) :
    (Tabs.keyStep prepared s .enter).2 = none := by
  simp only [Tabs.keyStep]
  rw [if_neg hopen, if_neg htab]
  split_ifs <;> rfl

theorem Tabs.keyStep_done (prepared : List Tabs.PreparedQuestion) (s : Tabs.SessionState)
    (k : Key) (out : Tabs.TabsUIState) (h : (Tabs.keyStep prepared s k).2 = some out) :
    out = Tabs.snapshotOf true s ∨
      (out = Tabs.snapshotOf false s ∧ Tabs.isAllValid prepared s = true) := by
  by_cases hopen : s.isNoteEditorOpen = true
  · cases k <;> simp [Tabs.keyStep, hopen] at h
  · by_cases htab : s.activeTabIndex = prepared.length
    · cases k with
      | enter =>
        by_cases hvalid : Tabs.isAllValid prepared s = true
        · simp [Tabs.keyStep, hopen, htab, hvalid] at h
          right; exact ⟨h.symm, hvalid⟩
        · simp [Tabs.keyStep, hopen, htab, hvalid] at h
      | escape =>
        simp [Tabs.keyStep, hopen, htab] at h
        left; exact h.symm
      | left => simp [Tabs.keyStep, hopen, htab] at h
      | right => simp [Tabs.keyStep, hopen, htab] at h
      | up => simp [Tabs.keyStep, hopen, htab] at h
      | down => simp [Tabs.keyStep, hopen, htab] at h
      | tab => simp [Tabs.keyStep, hopen, htab] at h
      | other => simp [Tabs.keyStep, hopen, htab] at h
    · cases k with
      | escape =>
        simp [Tabs.keyStep, hopen, htab] at h
        left; exact h.symm
      | enter => rw [Tabs.keyStep_enter_question_snd prepared s hopen htab] at h; simp at h
      | left => simp [Tabs.keyStep, hopen, htab] at h
      | right => simp [Tabs.keyStep, hopen, htab] at h
      | up => simp [Tabs.keyStep, hopen, htab] at h
      | down => simp [Tabs.keyStep, hopen, htab] at h
      | tab => simp [Tabs.keyStep, hopen, htab] at h
      | other => simp [Tabs.keyStep, hopen, htab] at h

/-- Claim C3: a question is valid exactly when it has a selected index
and, if the OTHER index is selected, a non-empty trimmed note for it;
with the note editor closed, enter on the submit tab resolves the session
uncancelled when every question is valid and otherwise changes nothing;
and no event at all can resolve the session uncancelled unless every
question is valid in the pre-state. -/
theorem claim_C3_submit_gating (prepared : List Tabs.PreparedQuestion)
    (s : Tabs.SessionState) :
    (∀ (q : Tabs.PreparedQuestion) (sel : List Nat) (notes : List String),
      Tabs.isQuestionSelectionValid q sel notes = true ↔
        (sel ≠ [] ∧ (q.otherOptionIndex ∈ sel →
          jsTrim (notes.getD q.otherOptionIndex "") ≠ ""))) ∧
    (s.activeTabIndex = prepared.length → s.isNoteEditorOpen = false →
      (Tabs.isAllValid prepared s = true →
        Tabs.step prepared s (.key .enter) = (s, some (Tabs.snapshotOf false s))) ∧
      (Tabs.isAllValid prepared s = false →
        Tabs.step prepared s (.key .enter) = (s, none))) ∧
    (∀ (e : TabsEvent) (out : Tabs.TabsUIState),
      (Tabs.step prepared s e).2 = some out → out.cancelled = false →
      Tabs.isAllValid prepared s = true) := by
  refine ⟨?_, ?_, ?_⟩
  · intro q sel notes
    by_cases h0 : sel.length = 0
    · have hnil : sel = [] := List.length_eq_zero.mp h0
      simp [Tabs.isQuestionSelectionValid, h0, hnil]
    · have hne : sel ≠ [] := fun hc => h0 (by rw [hc]; rfl)
      by_cases hmem : q.otherOptionIndex ∈ sel
      · simp [Tabs.isQuestionSelectionValid, h0, hmem, hne, String.ne_empty_iff_len]
      · simp [Tabs.isQuestionSelectionValid, h0, hmem, hne]
  · intro htab hopen
    constructor
    · intro hvalid
      simp [Tabs.step, Tabs.keyStep, hopen, htab, hvalid]
    · intro hvalid
      simp [Tabs.step, Tabs.keyStep, hopen, htab, hvalid]
  · intro e out hstep hfalse
    cases e with
    | editorChange v =>
      rw [show Tabs.step prepared s (.editorChange v) = Tabs.editorChangeStep prepared s v
        from rfl, Tabs.editorChangeStep_snd] at hstep
      exact absurd hstep (by simp)
    | editorSubmit v =>
      rw [show Tabs.step prepared s (.editorSubmit v) = Tabs.editorSubmitStep prepared s v
        from rfl, Tabs.editorSubmitStep_snd] at hstep
      exact absurd hstep (by simp)
    | key k =>
      have hdone := Tabs.keyStep_done prepared s k out hstep
      rcases hdone with hcanc | ⟨_, hvalid⟩
      · rw [hcanc] at hfalse
        exact absurd hfalse (by simp [Tabs.snapshotOf])
      · exact hvalid

/-! ## Claim C5: routing of the ask tool execute -/

/-- The per-question results execute assembles from the original
questions and the selections the session produced. -/
def execResults (questions : List AskQuestion) (sessionSelections : List AskSelection) :
    List QuestionResult :=
  questions.mapIdx fun i q => mkQuestionResult q (sessionSelections.getD i ⟨[], none⟩)

def exampleMultiQuestion : AskQuestion :=
  { id := "auth", question := "Which auth?", options := [⟨"JWT"⟩], multi := some true }

/-- Claim C5 (amended): in the part_000 variant of execute, with the host
UI available, a single non-multi question runs the inline single-question
session, while a single multi question or two or more questions run the
tabbed session, and the call returns the transcript as content together
with the structured details; the legacy src/index.ts variant instead
routes a single multi question to the checkbox select loop and several
questions to the tabbed session only when none is multi, otherwise to
sequential per-question sessions. -/
theorem claim_C5_execute_routing :
    (∀ (q : AskQuestion) (sels : List AskSelection),
      (executeCurrent true [q] sels).routeOf =
        some (if q.multi = some true then .tabbed [q] else .inlineSingle q)) ∧
    (∀ (qs : List AskQuestion) (sels : List AskSelection), 2 ≤ qs.length →
      (executeCurrent true qs sels).routeOf = some (.tabbed qs)) ∧
    (∀ (q : AskQuestion) (sels : List AskSelection),
      executeCurrent true [q] sels =
        .ran (if q.multi = some true then .tabbed [q] else .inlineSingle q)
          (buildAskSessionContent (execResults [q] sels))
          { id := some q.id
            question := some q.question
            options := some (q.options.map AskOption.label)
            multi := some (q.multi.getD false)
            selectedOptions := some (sels.getD 0 ⟨[], none⟩).selectedOptions
            customInput := (sels.getD 0 ⟨[], none⟩).customInput
            results := some (execResults [q] sels) }) ∧
    (∀ (qs : List AskQuestion) (sels : List AskSelection), 2 ≤ qs.length →
      executeCurrent true qs sels =
        .ran (.tabbed qs) (buildAskSessionContent (execResults qs sels))
          { results := some (execResults qs sels) }) ∧
    (∀ q : AskQuestion, routeLegacy [q] =
      some (if q.multi = some true then .checkboxLoop q else .inlineSingle q)) ∧
    (∀ qs : List AskQuestion, 2 ≤ qs.length → routeLegacy qs =
      some (if qs.any (fun q => q.multi = some true) then .sequentialEach qs
        else .tabbed qs)) := by
  have hsingle : ∀ (q : AskQuestion) (sels : List AskSelection),
      execResults [q] sels = [mkQuestionResult q (sels.getD 0 ⟨[], none⟩)] := fun _ _ => rfl
  refine ⟨?_, ?_, ?_, ?_, ?_, ?_⟩
  · intro q sels
    by_cases hm : q.multi = some true <;>
      simp [executeCurrent, ExecOutcome.routeOf, hm]
  · intro qs sels h2
    match qs, h2 with
    | q0 :: q1 :: rest, _ =>
      simp [executeCurrent, ExecOutcome.routeOf]
  · intro q sels
    by_cases hm : q.multi = some true <;>
      simp [executeCurrent, hsingle, hm]
  · intro qs sels h2
    match qs, h2 with
    | q0 :: q1 :: rest, _ =>
      simp [executeCurrent, execResults]
  · intro q
    by_cases hm : q.multi = some true <;> simp [routeLegacy, hm]
  · intro qs h2
    match qs, h2 with
    | q0 :: q1 :: rest, _ =>
      by_cases hany : (q0 :: q1 :: rest).any (fun q => q.multi = some true) <;>
        simp [routeLegacy, hany]

/-- Claim C5 witness: the routing facts instantiated at concrete calls. -/
theorem claim_C5_witness :
    (executeCurrent true [exampleMultiQuestion] [⟨[], none⟩]).routeOf =
      some (.tabbed [exampleMultiQuestion]) ∧
    (executeCurrent true [exampleAuthQuestion, exampleCacheQuestion]
      [⟨["JWT"], none⟩, ⟨["None"], none⟩]).routeOf =
      some (.tabbed [exampleAuthQuestion, exampleCacheQuestion]) ∧
    routeLegacy [exampleAuthQuestion, exampleCacheQuestion] =
      some (.tabbed [exampleAuthQuestion, exampleCacheQuestion]) := by
  have h := claim_C5_execute_routing
  refine ⟨?_, ?_, ?_⟩
  · rw [h.1 exampleMultiQuestion [⟨[], none⟩]]; decide
  · exact h.2.1 [exampleAuthQuestion, exampleCacheQuestion]
      [⟨["JWT"], none⟩, ⟨["None"], none⟩] (by decide)
  · rw [h.2.2.2.2.2 [exampleAuthQuestion, exampleCacheQuestion] (by decide)]; decide

/-- Claim C5 counterexample: the legacy execute variant runs the checkbox
select loop, not the tabbed session, for a single multi question. -/
theorem claim_C5_counterexample :
    routeLegacy [exampleMultiQuestion] = some (.checkboxLoop exampleMultiQuestion) ∧
    SessionRoute.checkboxLoop exampleMultiQuestion ≠
      SessionRoute.tabbed [exampleMultiQuestion] := by
  refine ⟨by decide, by decide⟩

/-! ## Claim C8: inline label truncation -/

theorem truncateTextKeepingTail_len (text : String) (m : Int) :
    (truncateTextKeepingTail text m).data.length ≤ m.toNat := by
  unfold truncateTextKeepingTail
  split_ifs with h0 hfit h1
  · simp
  · have : (text.data.length : Int) = text.data.length := rfl
    omega
  · subst h1; simp
  · rw [String.data_append, List.length_append, List.length_drop]
    have hd : ("…" : String).data.length = 1 := rfl
    omega

theorem truncateTextKeepingHead_len (text : String) (m : Int) :
    (truncateTextKeepingHead text m).data.length ≤ m.toNat := by
  unfold truncateTextKeepingHead
  split_ifs with h0 hfit h1
  · simp
  · omega
  · subst h1; simp
  · rw [String.data_append, List.length_append, List.length_take]
    have hd : ("…" : String).data.length = 1 := rfl
    omega

theorem truncateTextKeepingTail_one (text : String) (h : 1 < text.data.length) :
    truncateTextKeepingTail text 1 = "…" := by
  unfold truncateTextKeepingTail
  rw [if_neg (by omega), if_neg (by exact_mod_cast (by omega : ¬ (text.data.length : Int) ≤ 1)),
    if_pos rfl]

theorem truncateTextKeepingHead_one (text : String) (h : 1 < text.data.length) :
    truncateTextKeepingHead text 1 = "…" := by
  unfold truncateTextKeepingHead
  rw [if_neg (by omega), if_neg (by exact_mod_cast (by omega : ¬ (text.data.length : Int) ≤ 1)),
    if_pos rfl]

theorem truncateTextKeepingTail_getLast (text : String) (m : Int) (pre : List Char)
    (htext : text.data = pre ++ ['▍']) (h2 : 2 ≤ m) :
    (truncateTextKeepingTail text m).data.getLast? = some '▍' := by
  unfold truncateTextKeepingTail
  rw [if_neg (by omega)]
  by_cases hfit : (text.data.length : Int) ≤ m
  · rw [if_pos hfit, htext, List.getLast?_concat]
  · rw [if_neg hfit, if_neg (by omega)]
    rw [String.data_append]
    have hk : (pre ++ ['▍']).length - (m - 1).toNat ≤ pre.length := by
      rw [List.length_append]
      simp only [List.length_singleton]
      omega
    rw [htext, List.drop_append_of_le_length hk, ← List.append_assoc, List.getLast?_concat]

theorem truncateTextKeepingHead_eq (text : String) (m : Int) (h2 : 2 ≤ m)
    (hlt : m < (text.data.length : Int)) :
    truncateTextKeepingHead text m = String.mk (text.data.take (m - 1).toNat) ++ "…" := by
  unfold truncateTextKeepingHead
  rw [if_neg (by omega), if_neg (by omega), if_neg (by omega)]

theorem truncateTextKeepingTail_nonpos (text : String) (m : Int) (h : m ≤ 0) :
    truncateTextKeepingTail text m = "" := by
  unfold truncateTextKeepingTail
  rw [if_pos h]

theorem truncateTextKeepingHead_nonpos (text : String) (m : Int) (h : m ≤ 0) :
    truncateTextKeepingHead text m = "" := by
  unfold truncateTextKeepingHead
  rw [if_pos h]

theorem build_editing_some (label note : String) (m : Int) :
    buildOptionLabelWithInlineNote label note true (some m) =
      truncateTextKeepingTail
        (label ++ INLINE_NOTE_SEPARATOR ++ (sanitizeNoteForInlineDisplay note ++
          INLINE_EDIT_CURSOR)) m := by
  unfold buildOptionLabelWithInlineNote
  simp

theorem build_editing_none (label note : String) :
    buildOptionLabelWithInlineNote label note true none =
      label ++ INLINE_NOTE_SEPARATOR ++ (sanitizeNoteForInlineDisplay note ++
        INLINE_EDIT_CURSOR) := by
  unfold buildOptionLabelWithInlineNote
  simp

theorem build_plain_some (label note : String) (m : Int)
    (h : jsTrim (sanitizeNoteForInlineDisplay note) ≠ "") :
    buildOptionLabelWithInlineNote label note false (some m) =
      truncateTextKeepingHead
        (label ++ INLINE_NOTE_SEPARATOR ++ jsTrim (sanitizeNoteForInlineDisplay note)) m := by
  have hlen : ¬ (jsTrim (sanitizeNoteForInlineDisplay note)).data.length = 0 := by
    have := (String.ne_empty_iff_len _).mp h
    omega
  unfold buildOptionLabelWithInlineNote
  simp [hlen]
  intro hc
  exact absurd hc hlen

theorem editing_label_data (label note : String) :
    (label ++ INLINE_NOTE_SEPARATOR ++ (sanitizeNoteForInlineDisplay note ++
        INLINE_EDIT_CURSOR)).data =
      ((label ++ INLINE_NOTE_SEPARATOR).data ++ (sanitizeNoteForInlineDisplay note).data) ++
        ['▍'] := by
  simp [String.data_append, List.append_assoc, show INLINE_EDIT_CURSOR.data = ['▍'] from rfl]

theorem inline_label_len (label X : String) :
    (label ++ INLINE_NOTE_SEPARATOR ++ X).data.length =
      label.data.length + 9 + X.data.length := by
  rw [String.data_append, String.data_append, List.length_append, List.length_append]
  rfl

/-- Claim C8 (amended): when the inline label is actually composed (in
editing mode, or with a non-blank sanitized trimmed note) a given
maxLength bounds the result, a non-positive maxLength yields the empty
string, maxLength one yields a single ellipsis, editing-mode truncation
with maxLength at least two (or no maxLength) keeps the trailing
edit-cursor glyph, and non-editing truncation keeps the label head and
appends an ellipsis; with a blank note and not editing the label is
returned unchanged regardless of maxLength, as the counterexample
records. -/
theorem claim_C8_inline_truncation (label note : String) (m : Int) :
    ((buildOptionLabelWithInlineNote label note true (some m)).data.length ≤ m.toNat) ∧
    (jsTrim (sanitizeNoteForInlineDisplay note) ≠ "" →
      (buildOptionLabelWithInlineNote label note false (some m)).data.length ≤ m.toNat) ∧
    (m ≤ 0 → buildOptionLabelWithInlineNote label note true (some m) = "") ∧
    (m ≤ 0 → jsTrim (sanitizeNoteForInlineDisplay note) ≠ "" →
      buildOptionLabelWithInlineNote label note false (some m) = "") ∧
    (m = 1 → buildOptionLabelWithInlineNote label note true (some m) = "…") ∧
    (m = 1 → jsTrim (sanitizeNoteForInlineDisplay note) ≠ "" →
      buildOptionLabelWithInlineNote label note false (some m) = "…") ∧
    (2 ≤ m →
      (buildOptionLabelWithInlineNote label note true (some m)).data.getLast? = some '▍') ∧
    ((buildOptionLabelWithInlineNote label note true none).data.getLast? = some '▍') ∧
    (jsTrim (sanitizeNoteForInlineDisplay note) ≠ "" → 2 ≤ m →
      m < ((label ++ INLINE_NOTE_SEPARATOR ++
        jsTrim (sanitizeNoteForInlineDisplay note)).data.length : Int) →
      buildOptionLabelWithInlineNote label note false (some m) =
        String.mk ((label ++ INLINE_NOTE_SEPARATOR ++
          jsTrim (sanitizeNoteForInlineDisplay note)).data.take (m - 1).toNat) ++ "…") := by
  refine ⟨?_, ?_, ?_, ?_, ?_, ?_, ?_, ?_, ?_⟩
  · rw [build_editing_some]
    exact truncateTextKeepingTail_len _ m
  · intro h
    rw [build_plain_some label note m h]
    exact truncateTextKeepingHead_len _ m
  · intro h0
    rw [build_editing_some]
    exact truncateTextKeepingTail_nonpos _ m h0
  · intro h0 h
    rw [build_plain_some label note m h]
    exact truncateTextKeepingHead_nonpos _ m h0
  · intro h1
    subst h1
    rw [build_editing_some]
    apply truncateTextKeepingTail_one
    rw [inline_label_len]
    have : 0 < (sanitizeNoteForInlineDisplay note ++ INLINE_EDIT_CURSOR).data.length := by
      rw [String.data_append, List.length_append]
      have : (INLINE_EDIT_CURSOR : String).data.length = 1 := rfl
      omega
    omega
  · intro h1 h
    subst h1
    rw [build_plain_some label note 1 h]
    apply truncateTextKeepingHead_one
    rw [inline_label_len]
    have := (String.ne_empty_iff_len _).mp h
    omega
  · intro h2
    rw [build_editing_some]
    exact truncateTextKeepingTail_getLast _ m _ (editing_label_data label note) h2
  · rw [build_editing_none, editing_label_data, List.getLast?_concat]
  · intro h h2 hlt
    rw [build_plain_some label note m h]
    exact truncateTextKeepingHead_eq _ m h2 hlt

/-- Claim C8 witness: the truncation facts at concrete arguments. -/
theorem claim_C8_witness :
    ((buildOptionLabelWithInlineNote "A" "x" false (some 5)).data.length ≤ (5 : Int).toNat) ∧
    (buildOptionLabelWithInlineNote "A" "x" true (some 1) = "…") ∧
    (buildOptionLabelWithInlineNote "A" "x" false (some 6) =
      String.mk (("A" ++ INLINE_NOTE_SEPARATOR ++
        jsTrim (sanitizeNoteForInlineDisplay "x")).data.take ((6 : Int) - 1).toNat) ++ "…") :=
  ⟨(claim_C8_inline_truncation "A" "x" 5).2.1 (by decide),
   (claim_C8_inline_truncation "A" "x" 1).2.2.2.2.1 rfl,
   (claim_C8_inline_truncation "A" "x" 6).2.2.2.2.2.2.2.2 (by decide) (by decide) (by decide)⟩

/-- Claim C8 counterexample: with a blank note and not editing the label
is returned unchanged even when maxLength is zero, so the result can
exceed maxLength and is neither empty nor an ellipsis; and at maxLength
one the editing-mode result is the ellipsis, which does not end with the
edit-cursor glyph. -/
theorem claim_C8_counterexample :
    buildOptionLabelWithInlineNote "JWT" "" false (some 0) = "JWT" ∧
    ("JWT" : String) ≠ "" ∧
    ¬ (("JWT" : String).data.length ≤ (0 : Int).toNat) ∧
    buildOptionLabelWithInlineNote "A" "x" true (some 1) = "…" ∧
    ("…" : String).data.getLast? = some '…' ∧
    ('…' : Char) ≠ '▍' := by
  refine ⟨by decide, by decide, by decide, by decide, by decide, by decide⟩

/-! ## Claim C6: the session-text sanitizer and the transcript -/

/-- Two adjacent whitespace characters occur somewhere in the list. -/
def hasAdjWs : List Char → Bool
  | c :: d :: rest => (jsWsChar c && jsWsChar d) || hasAdjWs (d :: rest)
  | _ => false

theorem hasAdjWs_cons (c : Char) (l : List Char) :
    hasAdjWs (c :: l) = ((jsWsChar c && headIsWs l) || hasAdjWs l) := by
  cases l with
  | nil => simp [hasAdjWs, headIsWs]
  | cons d rest => simp [hasAdjWs, headIsWs]

theorem hasAdjWs_tail (c : Char) (l : List Char) (h : hasAdjWs (c :: l) = false) :
    hasAdjWs l = false := by
  rw [hasAdjWs_cons, Bool.or_eq_false_iff] at h
  exact h.2

theorem headIsWs_dropWhile (l : List Char) :
    headIsWs (l.dropWhile jsWsChar) = false := by
  induction l with
  | nil => rfl
  | cons c rest ih =>
    by_cases h : jsWsChar c = true
    · rw [List.dropWhile_cons_of_pos h]; exact ih
    · rw [List.dropWhile_cons_of_neg h]
      simpa [headIsWs] using h

theorem headIsWs_collapse (l : List Char) (h : headIsWs l = false) :
    headIsWs (collapseWsRuns l) = false := by
  cases l with
  | nil => rfl
  | cons c rest =>
    have hc : jsWsChar c = false := by simpa [headIsWs] using h
    rw [collapseWsRuns_cons, hc]
    simpa [headIsWs] using hc

theorem adj_collapse (l : List Char) : hasAdjWs (collapseWsRuns l) = false := by
  suffices h : ∀ (n : Nat) (l : List Char), l.length ≤ n → hasAdjWs (collapseWsRuns l) = false
    from h l.length l le_rfl
  intro n
  induction n with
  | zero =>
    intro l hl
    have : l = [] := List.length_eq_zero.mp (Nat.le_zero.mp hl)
    subst this
    rfl
  | succ n ih =>
    intro l hl
    cases l with
    | nil => rfl
    | cons c rest =>
      have hrest : rest.length ≤ n := by
        have : (c :: rest).length = rest.length + 1 := rfl
        omega
      rw [collapseWsRuns_cons]
      by_cases hcond : (jsWsChar c && headIsWs rest) = true
      · rw [if_pos hcond]
        rw [hasAdjWs_cons, Bool.or_eq_false_iff]
        constructor
        · have hdw := headIsWs_dropWhile rest
          have := headIsWs_collapse (rest.dropWhile jsWsChar) hdw
          rw [this]
          simp
        · exact ih (rest.dropWhile jsWsChar)
            (le_trans (length_dropWhile_le_gen jsWsChar rest) hrest)
      · rw [if_neg hcond]
        rw [hasAdjWs_cons, Bool.or_eq_false_iff]
        constructor
        · rcases Bool.and_eq_false_iff.mp (Bool.eq_false_iff.mpr hcond) with hc | hh
          · rw [hc]; simp
          · rw [headIsWs_collapse rest hh]; simp
        · exact ih rest hrest

theorem collapse_eq_self (l : List Char) (h : hasAdjWs l = false) :
    collapseWsRuns l = l := by
  induction l with
  | nil => rfl
  | cons c rest ih =>
    rw [hasAdjWs_cons, Bool.or_eq_false_iff] at h
    rw [collapseWsRuns_cons, if_neg (by rw [h.1]; exact Bool.false_ne_true), ih h.2]

theorem adj_dropWhile (l : List Char) (h : hasAdjWs l = false) :
    hasAdjWs (l.dropWhile jsWsChar) = false := by
  induction l with
  | nil => exact h
  | cons c rest ih =>
    by_cases hc : jsWsChar c = true
    · rw [List.dropWhile_cons_of_pos hc]
      exact ih (hasAdjWs_tail c rest h)
    · rw [List.dropWhile_cons_of_neg hc]
      exact h

theorem trimWsEnd_cons_of_nil (c : Char) (rest : List Char) (h : trimWsEnd rest = []) :
    trimWsEnd (c :: rest) = if jsWsChar c then [] else [c] := by
  rw [trimWsEnd, h]

theorem trimWsEnd_cons_of_ne (c : Char) (rest : List Char) (h : trimWsEnd rest ≠ []) :
    trimWsEnd (c :: rest) = c :: trimWsEnd rest := by
  cases hr : trimWsEnd rest with
  | nil => exact absurd hr h
  | cons d t => rw [trimWsEnd, hr]

theorem trimWsEnd_head (l : List Char) (d : Char) (t : List Char)
    (h : trimWsEnd l = d :: t) : ∃ t0, l = d :: t0 := by
  cases l with
  | nil => simp [trimWsEnd] at h
  | cons c rest =>
    by_cases hr : trimWsEnd rest = []
    · rw [trimWsEnd_cons_of_nil c rest hr] at h
      by_cases hc : jsWsChar c = true
      · rw [if_pos hc] at h; exact absurd h (by simp)
      · rw [if_neg hc] at h
        injection h with h1 _
        exact ⟨rest, by rw [h1]⟩
    · rw [trimWsEnd_cons_of_ne c rest hr] at h
      injection h with h1 _
      exact ⟨rest, by rw [h1]⟩

theorem adj_trimWsEnd (l : List Char) (h : hasAdjWs l = false) :
    hasAdjWs (trimWsEnd l) = false := by
  induction l with
  | nil => exact h
  | cons c rest ih =>
    by_cases hr : trimWsEnd rest = []
    · rw [trimWsEnd_cons_of_nil c rest hr]
      by_cases hc : jsWsChar c = true
      · rw [if_pos hc]; rfl
      · rw [if_neg hc]; rfl
    · rw [trimWsEnd_cons_of_ne c rest hr]
      rw [hasAdjWs_cons, Bool.or_eq_false_iff]
      refine ⟨?_, ih (hasAdjWs_tail c rest h)⟩
      cases he : trimWsEnd rest with
      | nil => exact absurd he hr
      | cons d t =>
        obtain ⟨t0, ht0⟩ := trimWsEnd_head rest d t he
        rw [ht0] at h
        rw [hasAdjWs_cons, Bool.or_eq_false_iff] at h
        have := h.1
        simpa [headIsWs, he] using this

theorem mem_trimWsEnd (l : List Char) (c : Char) (h : c ∈ trimWsEnd l) : c ∈ l := by
  induction l with
  | nil => exact absurd h (by simp [trimWsEnd])
  | cons x rest ih =>
    by_cases hr : trimWsEnd rest = []
    · rw [trimWsEnd_cons_of_nil x rest hr] at h
      by_cases hx : jsWsChar x = true
      · rw [if_pos hx] at h; exact absurd h (by simp)
      · rw [if_neg hx] at h
        rw [List.mem_singleton] at h
        rw [h]; exact List.mem_cons_self x rest
    · rw [trimWsEnd_cons_of_ne x rest hr] at h
      rcases List.mem_cons.mp h with h1 | h2
      · rw [h1]; exact List.mem_cons_self x rest
      · exact List.mem_cons_of_mem x (ih h2)

theorem mem_collapse (l : List Char) (c : Char) (h : c ∈ collapseWsRuns l) :
    c ∈ l ∨ c = ' ' := by
  suffices hs : ∀ (n : Nat) (l : List Char), l.length ≤ n → c ∈ collapseWsRuns l →
      c ∈ l ∨ c = ' ' from hs l.length l le_rfl h
  intro n
  induction n with
  | zero =>
    intro l hl hmem
    have : l = [] := List.length_eq_zero.mp (Nat.le_zero.mp hl)
    subst this
    exact absurd hmem (by simp [collapseWsRuns_nil])
  | succ n ih =>
    intro l hl hmem
    cases l with
    | nil => exact absurd hmem (by simp [collapseWsRuns_nil])
    | cons x rest =>
      have hrest : rest.length ≤ n := by
        have : (x :: rest).length = rest.length + 1 := rfl
        omega
      rw [collapseWsRuns_cons] at hmem
      by_cases hcond : (jsWsChar x && headIsWs rest) = true
      · rw [if_pos hcond] at hmem
        rcases List.mem_cons.mp hmem with h1 | h2
        · right; exact h1
        · rcases ih (rest.dropWhile jsWsChar)
            (le_trans (length_dropWhile_le_gen jsWsChar rest) hrest) h2 with h3 | h4
          · left
            exact List.mem_cons_of_mem x ((List.dropWhile_suffix jsWsChar).sublist.subset h3)
          · right; exact h4
      · rw [if_neg hcond] at hmem
        rcases List.mem_cons.mp hmem with h1 | h2
        · left; rw [h1]; exact List.mem_cons_self x rest
        · rcases ih rest hrest h2 with h3 | h4
          · left; exact List.mem_cons_of_mem x h3
          · right; exact h4

theorem mem_dropWhile_sub (l : List Char) (p : Char → Bool) (c : Char)
    (h : c ∈ l.dropWhile p) : c ∈ l :=
  (List.dropWhile_suffix p).sublist.subset h

theorem headIsWs_trimWsEnd (l : List Char) (h : headIsWs l = false) :
    headIsWs (trimWsEnd l) = false := by
  cases l with
  | nil => exact h
  | cons c rest =>
    have hc : jsWsChar c = false := by simpa [headIsWs] using h
    by_cases hr : trimWsEnd rest = []
    · rw [trimWsEnd_cons_of_nil c rest hr]
      by_cases hw : jsWsChar c = true
      · rw [if_pos hw]; rfl
      · rw [if_neg hw]; simpa [headIsWs] using hc
    · rw [trimWsEnd_cons_of_ne c rest hr]
      simpa [headIsWs] using hc

theorem dropWhile_eq_self_of_head (l : List Char) (h : headIsWs l = false) :
    l.dropWhile jsWsChar = l := by
  cases l with
  | nil => rfl
  | cons c rest =>
    have hc : jsWsChar c = false := by simpa [headIsWs] using h
    rw [List.dropWhile_cons_of_neg (by rw [hc]; exact Bool.false_ne_true)]

theorem trimWsEnd_idem (l : List Char) : trimWsEnd (trimWsEnd l) = trimWsEnd l := by
  induction l with
  | nil => rfl
  | cons c rest ih =>
    by_cases hr : trimWsEnd rest = []
    · rw [trimWsEnd_cons_of_nil c rest hr]
      by_cases hc : jsWsChar c = true
      · rw [if_pos hc]; rfl
      · rw [if_neg hc]
        rw [show trimWsEnd [c] = if jsWsChar c then [] else [c] from
          trimWsEnd_cons_of_nil c [] rfl, if_neg hc]
    · rw [trimWsEnd_cons_of_ne c rest hr]
      have hr2 : trimWsEnd (trimWsEnd rest) ≠ [] := by rw [ih]; exact hr
      rw [trimWsEnd_cons_of_ne c (trimWsEnd rest) (by rw [ih]; exact hr), ih]

theorem jsTrim_idem (s : String) : jsTrim (jsTrim s) = jsTrim s := by
  show String.mk (trimWsEnd ((trimWsEnd (s.data.dropWhile jsWsChar)).dropWhile jsWsChar)) =
    String.mk (trimWsEnd (s.data.dropWhile jsWsChar))
  have h1 : headIsWs (s.data.dropWhile jsWsChar) = false := headIsWs_dropWhile s.data
  have h2 : headIsWs (trimWsEnd (s.data.dropWhile jsWsChar)) = false :=
    headIsWs_trimWsEnd _ h1
  rw [dropWhile_eq_self_of_head _ h2, trimWsEnd_idem]

theorem mem_sanitize (s : String) (c : Char) (h : c ∈ (sanitizeForSessionText s).data) :
    isCrLfTab c = false ∧ isStrippedCtl c = false := by
  have h1 : c ∈ (collapseWsRuns (((s.data.map fun c => if isCrLfTab c then ' ' else c).filter
      fun c => !isStrippedCtl c))).dropWhile jsWsChar :=
    mem_trimWsEnd _ c h
  have h2 := mem_dropWhile_sub _ jsWsChar c h1
  rcases mem_collapse _ c h2 with h3 | h4
  · obtain ⟨h5, h6⟩ := List.mem_filter.mp h3
    obtain ⟨d, _, hd⟩ := List.mem_map.mp h5
    constructor
    · by_cases hcr : isCrLfTab d = true
      · rw [if_pos hcr] at hd
        rw [← hd]; decide
      · rw [if_neg hcr] at hd
        rw [← hd]
        exact Bool.eq_false_iff.mpr hcr
    · simpa using h6
  · subst h4
    exact ⟨by decide, by decide⟩

theorem map_pass_id (l : List Char) (h : ∀ c ∈ l, isCrLfTab c = false) :
    (l.map fun c => if isCrLfTab c then ' ' else c) = l := by
  have := List.map_congr_left (l := l)
    (f := fun c => if isCrLfTab c then ' ' else c) (g := id)
    (fun c hc => by simp [h c hc])
  rw [this, List.map_id]

theorem filter_pass_id (l : List Char) (h : ∀ c ∈ l, isStrippedCtl c = false) :
    (l.filter fun c => !isStrippedCtl c) = l :=
  List.filter_eq_self.mpr (fun c hc => by rw [h c hc]; rfl)

theorem adj_sanitize (s : String) : hasAdjWs ((sanitizeForSessionText s).data) = false :=
  adj_trimWsEnd _ (adj_dropWhile _ (adj_collapse _))

theorem sanitizeForSessionText_idem (s : String) :
    sanitizeForSessionText (sanitizeForSessionText s) = sanitizeForSessionText s := by
  have hmap : ((sanitizeForSessionText s).data.map fun c => if isCrLfTab c then ' ' else c) =
      (sanitizeForSessionText s).data :=
    map_pass_id _ (fun c hc => (mem_sanitize s c hc).1)
  have hfil : ((sanitizeForSessionText s).data.filter fun c => !isStrippedCtl c) =
      (sanitizeForSessionText s).data :=
    filter_pass_id _ (fun c hc => (mem_sanitize s c hc).2)
  have hcol : collapseWsRuns ((sanitizeForSessionText s).data) =
      (sanitizeForSessionText s).data :=
    collapse_eq_self _ (adj_sanitize s)
  show jsTrim (String.mk (collapseWsRuns
    (((sanitizeForSessionText s).data.map fun c => if isCrLfTab c then ' ' else c).filter
      fun c => !isStrippedCtl c))) = sanitizeForSessionText s
  rw [hmap, hfil, hcol]
  exact jsTrim_idem (String.mk (collapseWsRuns
    ((s.data.map fun c => if isCrLfTab c then ' ' else c).filter fun c => !isStrippedCtl c)))

theorem sanitizeOptionForSessionText_idem (o : String) :
    sanitizeOptionForSessionText (sanitizeOptionForSessionText o) =
      sanitizeOptionForSessionText o := by
  have hpl : sanitizeForSessionText "(empty option)" = "(empty option)" := by decide
  unfold sanitizeOptionForSessionText
  by_cases h : (sanitizeForSessionText o).data.length = 0
  · rw [if_pos h, hpl]
    rw [if_neg (by decide)]
  · rw [if_neg h, sanitizeForSessionText_idem, if_neg h]

theorem safe_id (r : QuestionResult) : (toSessionSafeQuestionResult r).id =
    if (sanitizeForSessionText r.id).data.length = 0 then "(unknown)"
    else sanitizeForSessionText r.id := rfl

theorem safe_question (r : QuestionResult) : (toSessionSafeQuestionResult r).question =
    if (sanitizeForSessionText r.question).data.length = 0 then "(empty question)"
    else sanitizeForSessionText r.question := rfl

theorem safe_options (r : QuestionResult) : (toSessionSafeQuestionResult r).options =
    r.options.map sanitizeOptionForSessionText := rfl

theorem safe_multi (r : QuestionResult) : (toSessionSafeQuestionResult r).multi = r.multi := rfl

theorem safe_selectedOptions (r : QuestionResult) :
    (toSessionSafeQuestionResult r).selectedOptions =
      (r.selectedOptions.map sanitizeForSessionText).filter
        fun x => decide (x.data.length > 0) := rfl

theorem safe_customInput (r : QuestionResult) :
    (toSessionSafeQuestionResult r).customInput =
      match r.customInput with
      | none => none
      | some c => if (sanitizeForSessionText c).data.length > 0 then
          some (sanitizeForSessionText c) else none := by
  show (match r.customInput.map sanitizeForSessionText with
    | none => none
    | some c => if c.data.length > 0 then some c else none) = _
  cases r.customInput with
  | none => rfl
  | some c => rfl

theorem QuestionResult.ext_fields (a b : QuestionResult) (h1 : a.id = b.id)
    (h2 : a.question = b.question) (h3 : a.options = b.options) (h4 : a.multi = b.multi)
    (h5 : a.selectedOptions = b.selectedOptions) (h6 : a.customInput = b.customInput) :
    a = b := by
  cases a; cases b
  simp only [QuestionResult.mk.injEq]
  exact ⟨h1, h2, h3, h4, h5, h6⟩

set_option maxHeartbeats 2000000 in
theorem toSessionSafeQuestionResult_idem (r : QuestionResult) :
    toSessionSafeQuestionResult (toSessionSafeQuestionResult r) =
      toSessionSafeQuestionResult r := by
  have hunk : sanitizeForSessionText "(unknown)" = "(unknown)" := by decide
  have hqst : sanitizeForSessionText "(empty question)" = "(empty question)" := by decide
  refine QuestionResult.ext_fields _ _ ?_ ?_ ?_ ?_ ?_ ?_
  · rw [safe_id, safe_id r]
    by_cases h : (sanitizeForSessionText r.id).data.length = 0
    · rw [if_pos h, hunk, ite_self]
    · rw [if_neg h, sanitizeForSessionText_idem, if_neg h]
  · rw [safe_question, safe_question r]
    by_cases h : (sanitizeForSessionText r.question).data.length = 0
    · rw [if_pos h, hqst, ite_self]
    · rw [if_neg h, sanitizeForSessionText_idem, if_neg h]
  · rw [safe_options, safe_options r, List.map_map]
    exact List.map_congr_left (fun o _ => sanitizeOptionForSessionText_idem o)
  · rw [safe_multi, safe_multi r]
  · rw [safe_selectedOptions, safe_selectedOptions r]
    have hmap : (((r.selectedOptions.map sanitizeForSessionText).filter
        fun x => decide (x.data.length > 0)).map sanitizeForSessionText) =
        ((r.selectedOptions.map sanitizeForSessionText).filter
          fun x => decide (x.data.length > 0)) := by
      have hcg := List.map_congr_left
        (l := (r.selectedOptions.map sanitizeForSessionText).filter
          fun x => decide (x.data.length > 0))
        (f := sanitizeForSessionText) (g := id)
        (fun x hx => by
          obtain ⟨hmem, -⟩ := List.mem_filter.mp hx
          obtain ⟨y, -, hy⟩ := List.mem_map.mp hmem
          simp only [id]
          rw [← hy, sanitizeForSessionText_idem])
      rw [hcg, List.map_id]
    rw [hmap]
    exact List.filter_eq_self.mpr (fun x hx => (List.mem_filter.mp hx).2)
  · rw [safe_customInput, safe_customInput r]
    cases r.customInput with
    | none => rfl
    | some c =>
      dsimp only
      by_cases h : (sanitizeForSessionText c).data.length > 0
      · rw [if_pos h]
        dsimp only
        rw [sanitizeForSessionText_idem, if_pos h]
      · rw [if_neg h]

theorem buildAskSessionContent_safe (rs : List QuestionResult) :
    buildAskSessionContent (rs.map toSessionSafeQuestionResult) = buildAskSessionContent rs := by
  unfold buildAskSessionContent
  rw [List.map_map]
  have h : rs.map (toSessionSafeQuestionResult ∘ toSessionSafeQuestionResult) =
      rs.map toSessionSafeQuestionResult :=
    List.map_congr_left (fun r _ => toSessionSafeQuestionResult_idem r)
  rw [h]

/-- Claim C6: the transcript only exposes text passed through the
session-text sanitizer (pre-sanitizing every result leaves the transcript
unchanged), whose fields are the sanitized originals with the fixed
placeholders for empty results, while the execute response carries the
transcript as content next to a details payload built from the original
unsanitized question and selection fields. -/
theorem claim_C6_transcript_sanitized (rs : List QuestionResult) (r : QuestionResult) :
    (buildAskSessionContent (rs.map toSessionSafeQuestionResult) = buildAskSessionContent rs) ∧
    ((toSessionSafeQuestionResult r).id =
      if (sanitizeForSessionText r.id).data.length = 0 then "(unknown)"
      else sanitizeForSessionText r.id) ∧
    ((toSessionSafeQuestionResult r).question =
      if (sanitizeForSessionText r.question).data.length = 0 then "(empty question)"
      else sanitizeForSessionText r.question) ∧
    ((toSessionSafeQuestionResult r).options = r.options.map sanitizeOptionForSessionText) ∧
    ((toSessionSafeQuestionResult r).selectedOptions =
      (r.selectedOptions.map sanitizeForSessionText).filter
        fun x => decide (x.data.length > 0)) ∧
    ((toSessionSafeQuestionResult r).multi = r.multi) ∧
    ((toSessionSafeQuestionResult r).customInput = match r.customInput with
      | none => none
      | some c => if (sanitizeForSessionText c).data.length > 0 then
          some (sanitizeForSessionText c) else none) ∧
    (∀ (q : AskQuestion) (sel : AskSelection),
      (mkQuestionResult q sel).id = q.id ∧
      (mkQuestionResult q sel).question = q.question ∧
      (mkQuestionResult q sel).options = q.options.map AskOption.label ∧
      (mkQuestionResult q sel).selectedOptions = sel.selectedOptions ∧
      (mkQuestionResult q sel).customInput = sel.customInput) ∧
    (∀ (sels : List AskSelection) (q0 q1 : AskQuestion) (rest : List AskQuestion),
      executeCurrent true (q0 :: q1 :: rest) sels =
        .ran (.tabbed (q0 :: q1 :: rest))
          (buildAskSessionContent (execResults (q0 :: q1 :: rest) sels))
          { results := some (execResults (q0 :: q1 :: rest) sels) }) := by
  refine ⟨buildAskSessionContent_safe rs, safe_id r, safe_question r, safe_options r,
    safe_selectedOptions r, safe_multi r, safe_customInput r, ?_, ?_⟩
  · intro q sel
    exact ⟨rfl, rfl, rfl, rfl, rfl⟩
  · intro sels q0 q1 rest
    simp [executeCurrent, execResults]
